import Mathlib

/-!
Shallow embedding of the core emulation kernel of the InanXR Game Boy emulator
(CPU, MMU/bus, cartridge MBC state machine, timer, PPU, APU register file,
joypad and the save-state loader), together with theorems settling the claims
of the specification against it.

Machine integers are modelled as `Nat` with explicit truncation (`% 256` for
`u8`, `% 0x10000` for `u16`, `% 0x100000000` for `u32`) at the points where the
source's types truncate.  Byte arrays are modelled as total functions
`Nat → Nat` updated pointwise.  The C++ `int` cycle accumulators of the timer
and PPU only ever hold non-negative values in the source (they are only
incremented by non-negative cycle deltas and drained by guarded subtraction),
so they are modelled as `Nat`.
-/

namespace GB

/-- Pointwise update of a byte store (`arr[i] = v`). -/
def upd (f : Nat → Nat) (i v : Nat) : Nat → Nat :=
  fun j => if j = i then v else f j

/-! ## Joypad (joypad.h / joypad.cpp) -/

structure Joypad where
  buttons : Nat
  select_reg : Nat

/-- Source `Joypad::write`: only bits 4–5 are stored. -/
def joypadWrite (j : Joypad) (value : Nat) : Joypad :=
  { j with select_reg := value &&& 0x30 }

/-- Source `Joypad::read`: start from 0xCF and clear the output bits of the pressed
buttons of each selected group (select bit 5 = 0 → action, bit 4 = 0 → d-pad). -/
def joypadRead (j : Joypad) (select : Nat) : Nat :=
  let result := 0xCF
  let select_action := select &&& 0x20 = 0
  let select_dpad := select &&& 0x10 = 0
  let result :=
    if select_action then
      let result := if j.buttons &&& 0x01 ≠ 0 then result &&& 0xFE else result
      let result := if j.buttons &&& 0x02 ≠ 0 then result &&& 0xFD else result
      let result := if j.buttons &&& 0x04 ≠ 0 then result &&& 0xFB else result
      if j.buttons &&& 0x08 ≠ 0 then result &&& 0xF7 else result
    else result
  if select_dpad then
    let result := if j.buttons &&& 0x10 ≠ 0 then result &&& 0xFE else result
    let result := if j.buttons &&& 0x20 ≠ 0 then result &&& 0xFD else result
    let result := if j.buttons &&& 0x40 ≠ 0 then result &&& 0xFB else result
    if j.buttons &&& 0x80 ≠ 0 then result &&& 0xF7 else result
  else result

/-! ## APU register file and square channels (apu.h / apu.cpp)

Only the state touched by `APU::write` (the bus-facing control channel) is
modelled: the 0x30-byte register window, the two square-channel records and the
frame-sequencer counters.  The SDL audio device, the float sample accumulator
and the cross-thread PCM ring buffer belong to `APU::step`/playback, which no
claim below exercises. -/

structure SquareChannel where
  nr_0 : Nat
  nr_1 : Nat
  nr_2 : Nat
  nr_3 : Nat
  nr_4 : Nat
  enabled : Bool
  timer : Int
  duty_pos : Nat
  length_counter : Nat
  volume : Nat
  envelope_timer : Nat
  output : Nat

structure APUState where
  registers : Nat → Nat
  ch1 : SquareChannel
  ch2 : SquareChannel
  frame_sequencer : Nat
  frame_sequencer_cycles : Nat

/-- Source `APU::triggerSquareChannel`. -/
def triggerSquareChannel (ch : SquareChannel) : SquareChannel :=
  let ch := { ch with enabled := true, volume := ch.nr_2 >>> 4,
                      envelope_timer := ch.nr_2 &&& 0x07 }
  let freq := ch.nr_3 ||| ((ch.nr_4 &&& 0x07) <<< 8)
  let ch := { ch with timer := ((2048 : Int) - freq) * 4 }
  if ch.length_counter = 0 then { ch with length_counter := 64 } else ch

/-- Source `APU::write` for `0xFF10 ≤ addr ≤ 0xFF3F` (the MMU only forwards that
range).  NR52 master-disable clears registers 0x00–0x1F and both channels;
while the master bit is off every other write only lands in the register
mirror. -/
def apuWrite (a : APUState) (addr value : Nat) : APUState :=
  if 0xFF10 ≤ addr ∧ addr ≤ 0xFF3F then
    let a := { a with registers := upd a.registers (addr - 0xFF10) value }
    if addr = 0xFF26 then
      if value &&& 0x80 = 0 then
        let regs := fun i => if i < 0x20 then 0 else a.registers i
        let regs := upd regs 0x16 (value &&& 0x80)
        { a with registers := regs,
                 ch1 := { a.ch1 with enabled := false },
                 ch2 := { a.ch2 with enabled := false } }
      else a
    else if a.registers 0x16 &&& 0x80 = 0 then a
    else if addr = 0xFF10 then { a with ch1 := { a.ch1 with nr_0 := value } }
    else if addr = 0xFF11 then
      { a with ch1 := { a.ch1 with nr_1 := value, length_counter := 64 - (value &&& 0x3F) } }
    else if addr = 0xFF12 then { a with ch1 := { a.ch1 with nr_2 := value } }
    else if addr = 0xFF13 then { a with ch1 := { a.ch1 with nr_3 := value } }
    else if addr = 0xFF14 then
      let ch := { a.ch1 with nr_4 := value }
      { a with ch1 := if value &&& 0x80 ≠ 0 then triggerSquareChannel ch else ch }
    else if addr = 0xFF16 then
      { a with ch2 := { a.ch2 with nr_1 := value, length_counter := 64 - (value &&& 0x3F) } }
    else if addr = 0xFF17 then { a with ch2 := { a.ch2 with nr_2 := value } }
    else if addr = 0xFF18 then { a with ch2 := { a.ch2 with nr_3 := value } }
    else if addr = 0xFF19 then
      let ch := { a.ch2 with nr_4 := value }
      { a with ch2 := if value &&& 0x80 ≠ 0 then triggerSquareChannel ch else ch }
    else a
  else a

/-! ## Cartridge and MBC state machine (cartridge.h / cartridge.cpp)

The ROM and external-RAM byte vectors are modelled as a byte function together
with an explicit size, mirroring `std::vector<u8>` indexing guarded by
`size()` checks in the source. -/

structure Cartridge where
  romData : Nat → Nat
  romSize : Nat
  ramData : Nat → Nat
  ramSize : Nat
  mbc_type : Nat
  rom_bank : Nat
  ram_bank : Nat
  ram_enabled : Bool
  rom_banking : Bool
  rtc_seconds : Nat
  rtc_minutes : Nat
  rtc_hours : Nat
  rtc_days_low : Nat
  rtc_days_high : Nat
  rtc_latched : Bool
  rtc_latch_state : Nat

/-- Source `Cartridge::readROM`. -/
def cartReadROM (c : Cartridge) (addr : Nat) : Nat :=
  if addr < 0x4000 then
    if addr < c.romSize then c.romData addr else 0xFF
  else
    let physical_addr := c.rom_bank * 0x4000 + (addr - 0x4000)
    if physical_addr < c.romSize then c.romData physical_addr else 0xFF

/-- Source `Cartridge::writeROM`: the MBC control channel, dispatched on the header
MBC code exactly as the source's switch. -/
def cartWriteROM (c : Cartridge) (addr value : Nat) : Cartridge :=
  match c.mbc_type with
  | 0x01 | 0x02 | 0x03 =>  -- MBC1
    if addr < 0x2000 then { c with ram_enabled := value &&& 0x0F = 0x0A }
    else if addr < 0x4000 then
      let bank := value &&& 0x1F
      let bank := if bank = 0 then 1 else bank
      { c with rom_bank := (c.rom_bank &&& 0x60) ||| bank }
    else if addr < 0x6000 then
      if c.rom_banking then
        { c with rom_bank := (c.rom_bank &&& 0x1F) ||| ((value &&& 0x03) <<< 5) }
      else { c with ram_bank := value &&& 0x03 }
    else if addr < 0x8000 then
      let rb := value &&& 0x01 = 0
      if rb then { c with rom_banking := true, ram_bank := 0 }
      else { c with rom_banking := false }
    else c
  | 0x05 | 0x06 =>  -- MBC2
    if addr < 0x4000 then
      if addr &&& 0x0100 = 0 then { c with ram_enabled := value &&& 0x0F = 0x0A }
      else
        let bank := value &&& 0x0F
        { c with rom_bank := if bank = 0 then 1 else bank }
    else c
  | 0x0F | 0x10 | 0x11 | 0x12 | 0x13 =>  -- MBC3
    if addr < 0x2000 then { c with ram_enabled := value &&& 0x0F = 0x0A }
    else if addr < 0x4000 then
      let bank := value &&& 0x7F
      { c with rom_bank := if bank = 0 then 1 else bank }
    else if addr < 0x6000 then { c with ram_bank := value }
    else if addr < 0x8000 then
      let c := if c.rtc_latch_state = 0x00 ∧ value = 0x01 then { c with rtc_latched := true } else c
      { c with rtc_latch_state := value }
    else c
  | 0x19 | 0x1A | 0x1B | 0x1C | 0x1D | 0x1E =>  -- MBC5
    if addr < 0x2000 then { c with ram_enabled := value &&& 0x0F = 0x0A }
    else if addr < 0x3000 then { c with rom_bank := (c.rom_bank &&& 0x100) ||| value }
    else if addr < 0x4000 then
      { c with rom_bank := (c.rom_bank &&& 0xFF) ||| ((value &&& 0x01) <<< 8) }
    else if addr < 0x6000 then { c with ram_bank := value &&& 0x0F }
    else c
  | _ => c  -- ROM-only / unknown MBC: writes ignored

/-- Source `Cartridge::readRAM`. -/
def cartReadRAM (c : Cartridge) (addr : Nat) : Nat :=
  if ¬c.ram_enabled ∨ c.ramSize = 0 then
    if (c.mbc_type = 0x05 ∨ c.mbc_type = 0x06) ∧ 512 ≤ c.ramSize then
      c.ramData (addr &&& 0x01FF) &&& 0x0F
    else 0xFF
  else if (0x0F ≤ c.mbc_type ∧ c.mbc_type ≤ 0x13) ∧
          (0x08 ≤ c.ram_bank ∧ c.ram_bank ≤ 0x0C) then
    match c.ram_bank with
    | 0x08 => c.rtc_seconds
    | 0x09 => c.rtc_minutes
    | 0x0A => c.rtc_hours
    | 0x0B => c.rtc_days_low
    | 0x0C => c.rtc_days_high
    | _ => 0xFF
  else if c.mbc_type = 0x05 ∨ c.mbc_type = 0x06 then
    c.ramData (addr &&& 0x01FF) &&& 0x0F
  else
    let physical_addr := c.ram_bank * 0x2000 + addr
    if physical_addr < c.ramSize then c.ramData physical_addr else 0xFF

/-- Source `Cartridge::writeRAM`. -/
def cartWriteRAM (c : Cartridge) (addr value : Nat) : Cartridge :=
  if ¬c.ram_enabled then c
  else if (0x0F ≤ c.mbc_type ∧ c.mbc_type ≤ 0x13) ∧
          (0x08 ≤ c.ram_bank ∧ c.ram_bank ≤ 0x0C) then
    match c.ram_bank with
    | 0x08 => { c with rtc_seconds := value }
    | 0x09 => { c with rtc_minutes := value }
    | 0x0A => { c with rtc_hours := value }
    | 0x0B => { c with rtc_days_low := value }
    | 0x0C => { c with rtc_days_high := value }
    | _ => c
  else if c.ramSize = 0 then c
  else if c.mbc_type = 0x05 ∨ c.mbc_type = 0x06 then
    { c with ramData := upd c.ramData (addr &&& 0x01FF) (value &&& 0x0F) }
  else
    let physical_addr := c.ram_bank * 0x2000 + addr
    if physical_addr < c.ramSize then { c with ramData := upd c.ramData physical_addr value }
    else c

/-! ## Timer state and MMU (timer.h, mmu.h)

The MMU owns the cartridge, the joypad, the timer and the APU, together with
the raw WRAM/VRAM/HRAM/OAM/IO arrays and the IE byte, exactly as `class MMU`.
`Timer::step(cycles, mmu)` is always invoked with the very MMU that owns the
timer, so the timer methods are modelled as functions on the whole MMU state
(the aliasing through `MMU::write(0xFF04, …) → Timer::resetDIV` is real in the
source and is what the theorems below are about). -/

structure Timer where
  div_counter : Nat
  tima_counter : Nat

structure MMU where
  cartridge : Option Cartridge
  wram : Nat → Nat
  vram : Nat → Nat
  hram : Nat → Nat
  oam : Nat → Nat
  io : Nat → Nat
  joypad : Joypad
  timer : Timer
  apu : APUState
  ie_register : Nat

/-- Source `MMU::read` (const).  The `u8` return type truncates to a byte.  The two
ROM branches of the source (`addr < 0x4000` and `addr < 0x8000`) perform the
same cartridge call and are merged here. -/
def mmuRead (s : MMU) (addr : Nat) : Nat :=
  let addr := addr % 0x10000
  (if addr < 0x8000 then
    match s.cartridge with
    | some c => cartReadROM c addr
    | none => 0xFF
  else if addr < 0xA000 then s.vram (addr - 0x8000)
  else if addr < 0xC000 then
    match s.cartridge with
    | some c => cartReadRAM c (addr - 0xA000)
    | none => 0xFF
  else if addr < 0xE000 then s.wram (addr - 0xC000)
  else if addr < 0xFE00 then s.wram (addr - 0xE000)
  else if addr < 0xFEA0 then s.oam (addr - 0xFE00)
  else if addr < 0xFF00 then 0xFF
  else if addr < 0xFF80 then
    if addr = 0xFF00 then joypadRead s.joypad (s.io 0x00)
    else s.io (addr - 0xFF00)
  else if addr < 0xFFFF then s.hram (addr - 0xFF80)
  else s.ie_register) % 0x100

/-- Source `MMU::doDMATransfer`: copy 160 bytes from `value*0x100` into OAM, reading
through the bus; the OAM updates are sequential, so a DMA sourced from the OAM
region itself sees the bytes already copied. -/
def doDMATransfer (s : MMU) (value : Nat) : MMU :=
  let source := value <<< 8
  (List.range 0xA0).foldl
    (fun st i => { st with oam := upd st.oam i (mmuRead st (source + i)) }) s

/-- Source `MMU::write`.  The `u16`/`u8` parameter types truncate the inputs. -/
def mmuWrite (s : MMU) (addr value : Nat) : MMU :=
  let addr := addr % 0x10000
  let value := value % 0x100
  if addr < 0x8000 then
    match s.cartridge with
    | some c => { s with cartridge := some (cartWriteROM c addr value) }
    | none => s
  else if addr < 0xA000 then { s with vram := upd s.vram (addr - 0x8000) value }
  else if addr < 0xC000 then
    match s.cartridge with
    | some c => { s with cartridge := some (cartWriteRAM c (addr - 0xA000) value) }
    | none => s
  else if addr < 0xE000 then { s with wram := upd s.wram (addr - 0xC000) value }
  else if addr < 0xFE00 then { s with wram := upd s.wram (addr - 0xE000) value }
  else if addr < 0xFEA0 then { s with oam := upd s.oam (addr - 0xFE00) value }
  else if addr < 0xFF00 then s
  else if addr < 0xFF80 then
    if addr = 0xFF00 then
      { s with joypad := joypadWrite s.joypad value, io := upd s.io 0x00 value }
    else if addr = 0xFF04 then
      -- DIV: any write resets the timer's divider and the stored byte
      { s with timer := { s.timer with div_counter := 0 }, io := upd s.io 0x04 0 }
    else if 0xFF10 ≤ addr ∧ addr ≤ 0xFF3F then
      { s with apu := apuWrite s.apu addr value }
    else if addr = 0xFF44 then { s with io := upd s.io 0x44 0 }
    else if addr = 0xFF46 then
      let s := doDMATransfer s value
      { s with io := upd s.io 0x46 value }
    else { s with io := upd s.io (addr - 0xFF00) value }
  else if addr < 0xFFFF then { s with hram := upd s.hram (addr - 0xFF80) value }
  else { s with ie_register := value }

/-! ## Timer (timer.cpp)

`Timer::step` takes M-cycles.  The two `while` drains are written with an
explicit fuel equal to the accumulator at entry: every iteration lowers the
accumulator by the (positive) threshold, so that fuel can never be exhausted
before the loop condition fails. -/

/-- The DIV `while (div_counter >= 64)` loop of `Timer::step`.  Each iteration
reads the visible DIV byte and writes `div+1` back through `MMU::write` — the
write the source comments as bypassing the MMU's reset logic, but which does
hit it. -/
def timerDivLoop : Nat → MMU → MMU
  | 0, s => s
  | fuel + 1, s =>
    if 64 ≤ s.timer.div_counter then
      let s := { s with timer := { s.timer with div_counter := s.timer.div_counter - 64 } }
      let div := mmuRead s 0xFF04
      let s := mmuWrite s 0xFF04 (div + 1)
      timerDivLoop fuel s
    else s

/-- The TIMA `while (tima_counter >= threshold)` loop of `Timer::checkTIMA`. -/
def timerTimaLoop (threshold : Nat) : Nat → MMU → MMU
  | 0, s => s
  | fuel + 1, s =>
    if threshold ≤ s.timer.tima_counter then
      let s := { s with timer := { s.timer with tima_counter := s.timer.tima_counter - threshold } }
      let tima := mmuRead s 0xFF05
      let s :=
        if tima = 0xFF then
          let tma := mmuRead s 0xFF06
          let s := mmuWrite s 0xFF05 tma
          let if_reg := mmuRead s 0xFF0F
          mmuWrite s 0xFF0F (if_reg ||| 0x04)
        else mmuWrite s 0xFF05 (tima + 1)
      timerTimaLoop threshold fuel s
    else s

/-- Source `Timer::checkTIMA`. -/
def timerCheckTIMA (cycles : Nat) (s : MMU) : MMU :=
  let tac := mmuRead s 0xFF07
  if tac &&& 0x04 = 0 then s
  else
    let threshold : Nat :=
      match tac &&& 0x03 with
      | 0 => 256
      | 1 => 4
      | 2 => 16
      | _ => 64
    let s := { s with timer := { s.timer with tima_counter := s.timer.tima_counter + cycles } }
    timerTimaLoop threshold s.timer.tima_counter s

/-- Source `Timer::step` (cycles are M-cycles): DIV handling, then TIMA handling. -/
def timerStep (cycles : Nat) (s : MMU) : MMU :=
  let s := { s with timer := { s.timer with div_counter := s.timer.div_counter + cycles } }
  let s := timerDivLoop s.timer.div_counter s
  timerCheckTIMA cycles s

/-! ## Initial state (the `MMU()` constructor's post-boot-ROM snapshot) -/

/-- The IO byte table set up by the `MMU()` constructor. -/
def ioInit : Nat → Nat := fun i =>
  match i with
  | 0x00 => 0xCF
  | 0x0F => 0xE0
  | 0x10 => 0x80
  | 0x11 => 0xBF
  | 0x12 => 0xF3
  | 0x14 => 0xBF
  | 0x16 => 0x3F
  | 0x19 => 0xBF
  | 0x1A => 0x7F
  | 0x1B => 0xFF
  | 0x1C => 0x9F
  | 0x1E => 0xBF
  | 0x20 => 0xFF
  | 0x23 => 0xBF
  | 0x24 => 0x77
  | 0x25 => 0xF3
  | 0x26 => 0xF1
  | 0x40 => 0x91
  | 0x47 => 0xFC
  | 0x48 => 0xFF
  | 0x49 => 0xFF
  | _ => 0

/-- A freshly constructed square channel (`ch1 = {0}`). -/
def squareChannelInit : SquareChannel :=
  { nr_0 := 0, nr_1 := 0, nr_2 := 0, nr_3 := 0, nr_4 := 0, enabled := false,
    timer := 0, duty_pos := 0, length_counter := 0, volume := 0,
    envelope_timer := 0, output := 0 }

/-- The `APU()` constructor: registers zeroed except NR52 = 0xF1. -/
def apuInit : APUState :=
  { registers := upd (fun _ => 0) 0x16 0xF1,
    ch1 := squareChannelInit, ch2 := squareChannelInit,
    frame_sequencer := 0, frame_sequencer_cycles := 0 }

/-- The `MMU()` constructor: no cartridge, zeroed arrays, post-boot IO bytes. -/
def mmuInit : MMU :=
  { cartridge := none,
    wram := fun _ => 0, vram := fun _ => 0, hram := fun _ => 0, oam := fun _ => 0,
    io := ioInit,
    joypad := { buttons := 0x00, select_reg := 0x00 },
    timer := { div_counter := 0, tima_counter := 0 },
    apu := apuInit,
    ie_register := 0 }

/-! ## CPU (cpu.h, cpu.cpp, instructions.cpp)

Registers are `u8`/`u16`; the `cycles` counter is `u32` and every bump is
reduced `% 2^32` accordingly. -/

structure CPUState where
  A : Nat
  F : Nat
  B : Nat
  C : Nat
  D : Nat
  E : Nat
  H : Nat
  L : Nat
  SP : Nat
  PC : Nat
  halted : Bool
  stopped : Bool
  ime : Bool
  ime_scheduled : Bool
  cycles : Nat
deriving DecidableEq

def FLAG_Z : Nat := 0x80
def FLAG_N : Nat := 0x40
def FLAG_H : Nat := 0x20
def FLAG_C : Nat := 0x10

/-- Source `CPU::getFlag`. -/
def getFlag (F flag : Nat) : Bool := F &&& flag ≠ 0

/-- Source `CPU::setFlag` (on the 8-bit F register: clearing masks with `~flag`). -/
def setFlag (F flag : Nat) (value : Bool) : Nat :=
  if value then F ||| flag else F &&& (0xFF ^^^ flag)

/-- Source `CPU::reset`: post-boot-ROM register state. -/
def cpuInit : CPUState :=
  { A := 0x01, F := 0xB0, B := 0x00, C := 0x13, D := 0x00, E := 0xD8,
    H := 0x01, L := 0x4D, SP := 0xFFFE, PC := 0x0100,
    halted := false, stopped := false, ime := false, ime_scheduled := false,
    cycles := 0 }

/-- Source `CPU::read8`: a bus read charges 4 T-cycles. -/
def cpuRead8 (c : CPUState) (m : MMU) (addr : Nat) : Nat × CPUState :=
  (mmuRead m addr, { c with cycles := (c.cycles + 4) % 0x100000000 })

/-- Source `CPU::write8`: a bus write charges 4 T-cycles. -/
def cpuWrite8 (c : CPUState) (m : MMU) (addr value : Nat) : CPUState × MMU :=
  ({ c with cycles := (c.cycles + 4) % 0x100000000 }, mmuWrite m addr value)

/-- Source `CPU::write16`: low byte first, then high byte. -/
def cpuWrite16 (c : CPUState) (m : MMU) (addr value : Nat) : CPUState × MMU :=
  let (c, m) := cpuWrite8 c m addr (value &&& 0xFF)
  cpuWrite8 c m ((addr + 1) % 0x10000) (value >>> 8)

/-- Source `CPU::push16`: `SP -= 2` (16-bit wrap), then a 16-bit write at SP. -/
def cpuPush16 (c : CPUState) (m : MMU) (value : Nat) : CPUState × MMU :=
  let c := { c with SP := (c.SP + 0x10000 - 2) % 0x10000 }
  cpuWrite16 c m c.SP value

/-- Source `CPU::DAA` from instructions.cpp (pure on the register file). -/
def cpuDAA (c : CPUState) : CPUState :=
  let carry := getFlag c.F FLAG_C
  let (A, carry) :=
    if ¬getFlag c.F FLAG_N then
      -- after addition
      let correction := if getFlag c.F FLAG_H ∨ 9 < (c.A &&& 0x0F) then 0x06 else 0x00
      let (correction, carry) :=
        if carry ∨ 0x99 < c.A then (correction ||| 0x60, true) else (correction, carry)
      ((c.A + correction) % 0x100, carry)
    else
      -- after subtraction
      let correction := if getFlag c.F FLAG_H then 0x06 else 0x00
      let correction := if carry then correction ||| 0x60 else correction
      ((c.A + 0x100 - correction) % 0x100, carry)
  let F := setFlag c.F FLAG_Z (A = 0)
  let F := setFlag F FLAG_H false
  let F := setFlag F FLAG_C carry
  { c with A := A, F := F }

/-- The least-index set bit among bits 0–4, as found by the
`for (i = 0; i < 5; i++)` scan of `CPU::handleInterrupts`; only evaluated when
`triggered = IF & IE & 0x1F` is non-zero. -/
def lowestPending (triggered : Nat) : Nat :=
  if triggered &&& 0x01 ≠ 0 then 0
  else if triggered &&& 0x02 ≠ 0 then 1
  else if triggered &&& 0x04 ≠ 0 then 2
  else if triggered &&& 0x08 ≠ 0 then 3
  else 4

/-- Source `CPU::handleInterrupts`: if IME is set and an enabled interrupt is pending,
service the lowest-numbered one: wake, clear IME, clear its IF bit, push PC,
jump to `0x40 + 8*i`, and charge the 20-T-cycle dispatch overhead (the two
stack-byte writes inside `push16` charge 4 T-cycles each on top of it). -/
def handleInterrupts (c : CPUState) (m : MMU) : CPUState × MMU :=
  if ¬c.ime then (c, m)
  else
    let IFv := mmuRead m 0xFF0F
    let IEv := mmuRead m 0xFFFF
    let triggered := IFv &&& IEv &&& 0x1F
    if triggered = 0 then (c, m)
    else
      let i := lowestPending triggered
      let c := { c with halted := false, ime := false }
      let m := mmuWrite m 0xFF0F (IFv &&& (0xFF ^^^ (1 <<< i)))
      let (c, m) := cpuPush16 c m c.PC
      let c := { c with PC := 0x0040 + i * 0x08 }
      ({ c with cycles := (c.cycles + 20) % 0x100000000 }, m)

/-- Embedding of `CPU::executeOpcode` restricted to the opcodes the theorems
below execute: NOP (0x00), HALT (0x76), DI (0xF3) and EI (0xFB).  All other
bytes of the source's 256-case dispatch fall through to its default case here
(no state change beyond the fetch); no theorem in this file executes any of
those other opcodes. -/
def executeOpcode (opcode : Nat) (c : CPUState) (m : MMU) : CPUState × MMU :=
  match opcode with
  | 0x00 => (c, m)                               -- NOP
  | 0x76 => ({ c with halted := true }, m)       -- HALT
  | 0xF3 => ({ c with ime := false }, m)         -- DI
  | 0xFB => ({ c with ime_scheduled := true }, m) -- EI
  | _ => (c, m)

/-- Source `CPU::step`: apply a scheduled EI (before the fetch of the instruction
following the EI), handle the halted wait, otherwise fetch at `PC++`, execute,
then dispatch interrupts. -/
def cpuStep (c : CPUState) (m : MMU) : CPUState × MMU :=
  let c := if c.ime_scheduled then { c with ime := true, ime_scheduled := false } else c
  if c.halted then
    let c := { c with cycles := (c.cycles + 4) % 0x100000000 }
    let IFv := mmuRead m 0xFF0F
    let IEv := mmuRead m 0xFFFF
    if IFv &&& IEv &&& 0x1F ≠ 0 then ({ c with halted := false }, m) else (c, m)
  else
    let (opcode, c) := cpuRead8 c m c.PC
    let c := { c with PC := (c.PC + 1) % 0x10000 }
    let (c, m) := executeOpcode opcode c m
    handleInterrupts c m

/-! ## PPU (ppu.h, ppu.cpp) -/

inductive PpuMode where
  | HBLANK
  | VBLANK
  | OAM
  | VRAM
deriving DecidableEq

/-- The STAT low-2-bit encoding of each mode (the enum values of `PPU::Mode`). -/
def PpuMode.toNat : PpuMode → Nat
  | .HBLANK => 0
  | .VBLANK => 1
  | .OAM => 2
  | .VRAM => 3

structure PPUState where
  mode : PpuMode
  mode_cycles : Nat
  scanline : Nat
  frame_ready : Bool
  framebuffer : Nat → Nat

/-- The `PPU()` constructor. -/
def ppuInit : PPUState :=
  { mode := .OAM, mode_cycles := 0, scanline := 0, frame_ready := false,
    framebuffer := fun _ => 0 }

/-- Source `PPU::getColor`: extract the 2-bit shade of `color_id` from a packed
palette byte. -/
def getColor (palette color_id : Nat) : Nat :=
  (palette >>> (color_id * 2)) &&& 0x03

/-- Source `PPU::renderBackground` for one scanline, as a framebuffer transformer. -/
def renderBackground (line : Nat) (m : MMU) (fb : Nat → Nat) : Nat → Nat :=
  let lcdc := mmuRead m 0xFF40
  if lcdc &&& 0x01 = 0 then
    (List.range 160).foldl (fun fb x => upd fb (line * 160 + x) 0) fb
  else
    let scy := mmuRead m 0xFF42
    let scx := mmuRead m 0xFF43
    let bgp := mmuRead m 0xFF47
    let tile_map := if lcdc &&& 0x08 ≠ 0 then 0x9C00 else 0x9800
    let tile_data := if lcdc &&& 0x10 ≠ 0 then 0x8000 else 0x8800
    let unsigned_addressing := lcdc &&& 0x10 ≠ 0
    let y := (line + scy) &&& 0xFF
    let tile_row := y / 8
    let tile_y := y % 8
    (List.range 160).foldl (fun fb x =>
      let pixel_x := (x + scx) &&& 0xFF
      let tile_col := pixel_x / 8
      let tile_x := pixel_x % 8
      let tile_num := mmuRead m (tile_map + tile_row * 32 + tile_col)
      let tile_data_addr :=
        if unsigned_addressing then tile_data + tile_num * 16
        else
          -- i8 cast of the tile index, then int arithmetic assigned to u16
          let signed_tile : Int := if 0x80 ≤ tile_num then (tile_num : Int) - 256 else tile_num
          (((tile_data : Int) + signed_tile * 16 + 0x800).toNat) % 0x10000
      let byte1 := mmuRead m (tile_data_addr + tile_y * 2)
      let byte2 := mmuRead m (tile_data_addr + tile_y * 2 + 1)
      let bit := 7 - tile_x
      let color_id := (((byte2 >>> bit) &&& 1) <<< 1) ||| ((byte1 >>> bit) &&& 1)
      upd fb (line * 160 + x) (getColor bgp color_id)) fb

/-- Source `PPU::renderSprites` for one scanline (the source computes the
BG-over-OBJ priority flag but never uses it). -/
def renderSprites (line : Nat) (m : MMU) (fb : Nat → Nat) : Nat → Nat :=
  let lcdc := mmuRead m 0xFF40
  if lcdc &&& 0x02 = 0 then fb
  else
    let sprite_height := if lcdc &&& 0x04 ≠ 0 then 16 else 8
    (List.range 40).foldl (fun fb i =>
      let oam_addr := 0xFE00 + i * 4
      let y_pos := (mmuRead m oam_addr + 0x100 - 16) % 0x100
      let x_pos := (mmuRead m (oam_addr + 1) + 0x100 - 8) % 0x100
      let tile := mmuRead m (oam_addr + 2)
      let flags := mmuRead m (oam_addr + 3)
      if line < y_pos ∨ y_pos + sprite_height ≤ line then fb
      else
        let flip_x := flags &&& 0x20 ≠ 0
        let flip_y := flags &&& 0x40 ≠ 0
        let palette := mmuRead m (if flags &&& 0x10 ≠ 0 then 0xFF49 else 0xFF48)
        let sprite_line := line - y_pos
        let sprite_line := if flip_y then sprite_height - 1 - sprite_line else sprite_line
        let byte1 := mmuRead m (0x8000 + tile * 16 + sprite_line * 2)
        let byte2 := mmuRead m (0x8000 + tile * 16 + sprite_line * 2 + 1)
        (List.range 8).foldl (fun fb px =>
          let pixel_x := x_pos + px
          if 160 ≤ pixel_x then fb
          else
            let bit := if flip_x then px else 7 - px
            let color_id := (((byte2 >>> bit) &&& 1) <<< 1) ||| ((byte1 >>> bit) &&& 1)
            if color_id = 0 then fb
            else upd fb (line * 160 + pixel_x) (getColor palette color_id)) fb) fb

/-- Source `PPU::renderScanline`: background, then sprites on top. -/
def renderScanline (line : Nat) (m : MMU) (fb : Nat → Nat) : Nat → Nat :=
  renderSprites line m (renderBackground line m fb)

/-- Source `PPU::setMode`: record the mode and rewrite STAT's low 2 bits. -/
def ppuSetMode (new_mode : PpuMode) (p : PPUState) (m : MMU) : PPUState × MMU :=
  let p := { p with mode := new_mode }
  let stat := mmuRead m 0xFF41
  let m := mmuWrite m 0xFF41 ((stat &&& 0xFC) ||| new_mode.toNat)
  (p, m)

/-- Source `PPU::step`.  Cycles are accumulated first; if LCDC bit 7 is clear the
internal state resets; otherwise at most one mode transition fires. -/
def ppuStep (cycles : Nat) (p : PPUState) (m : MMU) : PPUState × MMU :=
  let p := { p with mode_cycles := p.mode_cycles + cycles }
  let lcdc := mmuRead m 0xFF40
  if lcdc &&& 0x80 = 0 then
    ({ p with scanline := 0, mode_cycles := 0, mode := .OAM }, m)
  else
    match p.mode with
    | .OAM =>
      if 80 ≤ p.mode_cycles then
        ppuSetMode .VRAM { p with mode_cycles := p.mode_cycles - 80 } m
      else (p, m)
    | .VRAM =>
      if 172 ≤ p.mode_cycles then
        let p := { p with mode_cycles := p.mode_cycles - 172 }
        let p := { p with framebuffer := renderScanline p.scanline m p.framebuffer }
        ppuSetMode .HBLANK p m
      else (p, m)
    | .HBLANK =>
      if 204 ≤ p.mode_cycles then
        let p := { p with mode_cycles := p.mode_cycles - 204, scanline := p.scanline + 1 }
        let m := { m with io := upd m.io 0x44 (p.scanline % 0x100) }  -- MMU::setLY
        let lyc := mmuRead m 0xFF45
        let stat := mmuRead m 0xFF41
        let statm :=
          if p.scanline = lyc then
            let stat := stat ||| 0x04
            let m :=
              if stat &&& 0x40 ≠ 0 then
                mmuWrite m 0xFF0F ((mmuRead m 0xFF0F) ||| 0x02)
              else m
            (stat, m)
          else (stat &&& 0xFB, m)
        let m := mmuWrite statm.2 0xFF41 statm.1
        if p.scanline = 144 then
          let pm := ppuSetMode .VBLANK p m
          let p := { pm.1 with frame_ready := true }
          let m := mmuWrite pm.2 0xFF0F ((mmuRead pm.2 0xFF0F) ||| 0x01)
          (p, m)
        else ppuSetMode .OAM p m
      else (p, m)
    | .VBLANK =>
      if 456 ≤ p.mode_cycles then
        let p := { p with mode_cycles := p.mode_cycles - 456, scanline := p.scanline + 1 }
        let m := { m with io := upd m.io 0x44 (p.scanline % 0x100) }  -- MMU::setLY
        if p.scanline = 154 then
          let p := { p with scanline := 0 }
          let m := { m with io := upd m.io 0x44 0 }
          ppuSetMode .OAM p m
        else (p, m)
      else (p, m)

/-! ## Save states (savestate.h, savestate.cpp)

The file is modelled as the list of its bytes.  `std::ifstream::read` into a
zero-initialised buffer leaves the untouched tail at zero when the file is
short, so missing bytes read as 0 (`List.getD _ _ 0`).  `PPU::loadState`,
`APU::loadState` and `Timer::loadState` are empty stubs in the source and are
the identity here. -/

/-- Byte `k` of the stream (0 when past the end, matching the
zero-initialised read buffers of the loader). -/
def byteAt (bs : List Nat) (k : Nat) : Nat := bs.getD k 0

/-- A little-endian `u16` at offset `k`. -/
def u16At (bs : List Nat) (k : Nat) : Nat := byteAt bs k + byteAt bs (k + 1) * 0x100

/-- A little-endian `u32` at offset `k`. -/
def u32At (bs : List Nat) (k : Nat) : Nat :=
  byteAt bs k + byteAt bs (k + 1) * 0x100 + byteAt bs (k + 2) * 0x10000 +
    byteAt bs (k + 3) * 0x1000000

/-- Source `file.read` of `n` bytes into a byte array. -/
def loadArr (bs : List Nat) (n : Nat) (f : Nat → Nat) : Nat → Nat :=
  fun i => if i < n then byteAt bs i else f i

/-- Source `CPU::loadState`: the eight registers, SP, PC, the four state flags and
the `u32` cycle counter, in write order. -/
def cpuLoadState (bs : List Nat) (c : CPUState) : CPUState × List Nat :=
  ({ c with
      A := byteAt bs 0, F := byteAt bs 1, B := byteAt bs 2, C := byteAt bs 3,
      D := byteAt bs 4, E := byteAt bs 5, H := byteAt bs 6, L := byteAt bs 7,
      SP := u16At bs 8, PC := u16At bs 10,
      halted := byteAt bs 12 ≠ 0, stopped := byteAt bs 13 ≠ 0,
      ime := byteAt bs 14 ≠ 0, ime_scheduled := byteAt bs 15 ≠ 0,
      cycles := u32At bs 16 },
   bs.drop 20)

/-- Source `Cartridge::loadState`: RAM size word, RAM bytes (only when the stored
size is non-zero and fits the allocated vector), then the MBC and RTC state
(`rom_bank`/`ram_bank` are C++ `int`s, 4 bytes each). -/
def cartLoadState (bs : List Nat) (c : Cartridge) : Cartridge × List Nat :=
  let ram_size := u32At bs 0
  let bs := bs.drop 4
  let (ramData, bs) :=
    if 0 < ram_size ∧ ram_size ≤ c.ramSize then (loadArr bs ram_size c.ramData, bs.drop ram_size)
    else (c.ramData, bs)
  ({ c with
      ramData := ramData,
      rom_bank := u32At bs 0, ram_bank := u32At bs 4,
      ram_enabled := byteAt bs 8 ≠ 0, rom_banking := byteAt bs 9 ≠ 0,
      rtc_seconds := byteAt bs 10, rtc_minutes := byteAt bs 11,
      rtc_hours := byteAt bs 12, rtc_days_low := byteAt bs 13,
      rtc_days_high := byteAt bs 14, rtc_latched := byteAt bs 15 ≠ 0,
      rtc_latch_state := byteAt bs 16 },
   bs.drop 17)

/-- Source `MMU::loadState`: the five memory arrays, the IE byte, then the cartridge
state when a cartridge is present. -/
def mmuLoadState (bs : List Nat) (m : MMU) : MMU × List Nat :=
  let wram := loadArr bs 0x2000 m.wram
  let bs := bs.drop 0x2000
  let vram := loadArr bs 0x2000 m.vram
  let bs := bs.drop 0x2000
  let hram := loadArr bs 0x80 m.hram
  let bs := bs.drop 0x80
  let oam := loadArr bs 0xA0 m.oam
  let bs := bs.drop 0xA0
  let io := loadArr bs 0x80 m.io
  let bs := bs.drop 0x80
  let ie := byteAt bs 0
  let bs := bs.drop 1
  let m := { m with wram := wram, vram := vram, hram := hram, oam := oam,
                    io := io, ie_register := ie }
  match m.cartridge with
  | some c =>
    let (c, bs) := cartLoadState bs c
    ({ m with cartridge := some c }, bs)
  | none => (m, bs)

/-- The ASCII bytes of `SaveState::MAGIC` (`"GBSTATE"`). -/
def GBSTATE : List Nat := [0x47, 0x42, 0x53, 0x54, 0x41, 0x54, 0x45]

/-- Source `SaveState::load`: verify the 7-byte magic (compared through `strcmp`
against a zero-initialised buffer, i.e. the padded first seven bytes must
equal `"GBSTATE"` exactly) and the version byte; on failure return `false`
without touching any component; on success run the component loaders in
order (the PPU/APU/Timer ones are stubs). -/
def saveStateLoad (bs : List Nat) (c : CPUState) (m : MMU) (p : PPUState) :
    Bool × CPUState × MMU × PPUState :=
  let magic := (List.range 7).map (byteAt bs)
  let version := byteAt bs 7
  if magic ≠ GBSTATE then (false, c, m, p)
  else if version ≠ 1 then (false, c, m, p)
  else
    let bs := bs.drop 8
    let (c, bs) := cpuLoadState bs c
    let (m, _bs) := mmuLoadState bs m
    (true, c, m, p)

/-! ## Auxiliary definitions used by the claim theorems -/

/-- A sequence of bus writes, applied in order through `MMU::write`. -/
def busWrites (s : MMU) (ws : List (Nat × Nat)) : MMU :=
  ws.foldl (fun st w => mmuWrite st w.1 w.2) s

/-- Spec model of `k` TIMA increments (from the spec's words: "On each period
elapsed, increment TIMA; on overflow from 0xFF, reload TIMA ← TMA and raise
timer interrupt").  Carries the TIMA value and whether any overflow occurred. -/
def timaRun (tma : Nat) : Nat → Nat × Bool → Nat × Bool
  | 0, p => p
  | k + 1, (t, f) => timaRun tma k (if t = 0xFF then (tma, true) else (t + 1, f))

/-- Pack Z/N/H/C flag booleans the way the F register represents them. -/
def flagByte (z n h c : Bool) : Nat :=
  (if z then 0x80 else 0) ||| (if n then 0x40 else 0) |||
    (if h then 0x20 else 0) ||| (if c then 0x10 else 0)

/-- Spec model of DAA (from the spec's words): after addition (N=0), add 0x06
when H is set or the low nibble exceeds 9, then add 0x60 and set C when C is
set or A exceeds 0x99; after subtraction (N=1), subtract 0x06 when H is set and
0x60 when C is set; finally Z = (A = 0), H = 0, C preserved or promoted.
Returns the new A and C. -/
def daaSpec (n h c : Bool) (a : Nat) : Nat × Bool :=
  if n then
    (((a + 0x200) - (if h then 0x06 else 0) - (if c then 0x60 else 0)) % 0x100, c)
  else
    let adjLow := if h ∨ 9 < a &&& 0x0F then 0x06 else 0
    let promote := c ∨ 0x99 < a
    let adjHigh := if promote then 0x60 else 0
    ((a + adjLow + adjHigh) % 0x100, promote)

/-- The `EI; NOP; DI` test program placed in WRAM at 0xC000, with IE = 1 and
the stored IF byte = 1 (VBlank pending). -/
def eiNopDiMMU : MMU :=
  { mmuInit with
      wram := upd (upd (upd mmuInit.wram 0 0xFB) 1 0x00) 2 0xF3,
      io := upd mmuInit.io 0x0F 0x01,
      ie_register := 0x01 }

/-- A CPU about to execute the program at 0xC000. -/
def eiNopDiCPU : CPUState := { cpuInit with PC := 0xC000 }

/-- A CPU with IME set, used to exercise interrupt dispatch. -/
def irqCPU : CPUState := { cpuInit with ime := true }

/-- An MMU with VBlank pending (IF = 0xE1) and all interrupts enabled. -/
def irqMMU : MMU :=
  { mmuInit with io := upd mmuInit.io 0x0F 0xE1, ie_register := 0xFF }

/-- A PPU at the start of V-blank (scanline 144). -/
def vblankPPU : PPUState :=
  { mode := .VBLANK, mode_cycles := 0, scanline := 144, frame_ready := true,
    framebuffer := fun _ => 0 }

/-- An MMU whose LYC is 145 with the STAT LYC-interrupt enable (bit 6) set
(LCD on: the reset LCDC 0x91 already has bit 7). -/
def vblankMMU : MMU :=
  { mmuInit with io := upd (upd mmuInit.io 0x45 145) 0x41 0x40 }

/-- A halted CPU with a scheduled (EI-delayed) IME enable. -/
def haltedSchedCPU : CPUState :=
  { cpuInit with halted := true, ime_scheduled := true }

/-- A halted CPU with no scheduled IME enable. -/
def haltedCPU : CPUState := { cpuInit with halted := true }

/-- A concrete MBC1 cartridge with a 64 KiB ROM whose byte at offset 0x8000 is
0x5A, used to witness the bank-select theorem. -/
def mbc1Cart : Cartridge :=
  { romData := fun a => if a = 0x8000 then 0x5A else 0x00,
    romSize := 0x10000,
    ramData := fun _ => 0, ramSize := 0x2000,
    mbc_type := 0x01, rom_bank := 1, ram_bank := 0,
    ram_enabled := false, rom_banking := true,
    rtc_seconds := 0, rtc_minutes := 0, rtc_hours := 0,
    rtc_days_low := 0, rtc_days_high := 0,
    rtc_latched := false, rtc_latch_state := 0xFF }

/-- An MMU with TAC = 0x05 (timer enabled, 4-M-cycle period), TIMA = 0xFE and
TMA = 0xAB, used to witness the timer theorem. -/
def timaMMU : MMU :=
  { mmuInit with io := upd (upd (upd mmuInit.io 0x07 0x05) 0x05 0xFE) 0x06 0xAB }


/-- A PPU at the end of an H-blank on visible line 10. -/
def hblankPPU : PPUState :=
  { mode := .HBLANK, mode_cycles := 204, scanline := 10, frame_ready := false,
    framebuffer := fun _ => 0 }

/-- An MMU with LYC = 11 and STAT bit 6 (the LYC=LY interrupt enable) set. -/
def hblankMMU : MMU :=
  { mmuInit with io := upd (upd mmuInit.io 0x45 11) 0x41 0x40 }

/-! ## Helper lemmas -/

theorem upd_same (f : Nat → Nat) (i v : Nat) : upd f i v i = v := by
  simp [upd]

theorem upd_other (f : Nat → Nat) (i v j : Nat) (h : j ≠ i) : upd f i v j = f j := by
  simp [upd, h]

theorem mmuRead_FF04 (s : MMU) : mmuRead s 0xFF04 = s.io 0x04 % 0x100 := rfl

theorem mmuRead_FF05 (s : MMU) : mmuRead s 0xFF05 = s.io 0x05 % 0x100 := rfl

theorem mmuRead_FF06 (s : MMU) : mmuRead s 0xFF06 = s.io 0x06 % 0x100 := rfl

theorem mmuRead_FF07 (s : MMU) : mmuRead s 0xFF07 = s.io 0x07 % 0x100 := rfl

theorem mmuRead_FF0F (s : MMU) : mmuRead s 0xFF0F = s.io 0x0F % 0x100 := rfl

theorem mmuRead_FF40 (s : MMU) : mmuRead s 0xFF40 = s.io 0x40 % 0x100 := rfl

theorem mmuRead_FF41 (s : MMU) : mmuRead s 0xFF41 = s.io 0x41 % 0x100 := rfl

theorem mmuRead_FF44 (s : MMU) : mmuRead s 0xFF44 = s.io 0x44 % 0x100 := rfl

theorem mmuRead_FF45 (s : MMU) : mmuRead s 0xFF45 = s.io 0x45 % 0x100 := rfl

theorem mmuRead_FFFF (s : MMU) : mmuRead s 0xFFFF = s.ie_register % 0x100 := rfl

theorem mmuWrite_FF04 (s : MMU) (v : Nat) :
    mmuWrite s 0xFF04 v =
      { s with timer := { s.timer with div_counter := 0 }, io := upd s.io 0x04 0 } := rfl

theorem mmuWrite_FF05 (s : MMU) (v : Nat) :
    mmuWrite s 0xFF05 v = { s with io := upd s.io 0x05 (v % 0x100) } := rfl

theorem mmuWrite_FF0F (s : MMU) (v : Nat) :
    mmuWrite s 0xFF0F v = { s with io := upd s.io 0x0F (v % 0x100) } := rfl

theorem mmuWrite_FF41 (s : MMU) (v : Nat) :
    mmuWrite s 0xFF41 v = { s with io := upd s.io 0x41 (v % 0x100) } := rfl

/-! ## C1 — DIV -/

/-- C1: the claim states that the visible DIV byte increments once per 64
M-cycles passed into `Timer::step`.  In the source, the timer's own DIV
increment goes through `MMU::write(0xFF04, div+1)` — despite the comment
saying that write bypasses the MMU's reset logic — and `MMU::write` resets
both the divider accumulator and the stored byte to 0 on any 0xFF04 write.
Consequently DIV never leaves 0: after 64, 128 and even 640 M-cycles from the
reset state the visible byte is still 0 and the accumulator has been wiped. -/
theorem C1_div_never_increments :
    mmuRead (timerStep 64 mmuInit) 0xFF04 = 0 ∧
    (timerStep 64 mmuInit).timer.div_counter = 0 ∧
    mmuRead (timerStep 64 (timerStep 64 mmuInit)) 0xFF04 = 0 ∧
    mmuRead (timerStep 640 mmuInit) 0xFF04 = 0 ∧
    (timerStep 640 mmuInit).timer.div_counter = 0 := by
  decide

/-! ## C3 — IF bits 5–7 -/

/-- C3 counterexample: writing 0x00 to 0xFF0F through the bus and reading it
back yields 0x00 — bits 5–7 of the value read are not 1, refuting the claim
that they read as 1 after any sequence of bus writes. -/
theorem C3_counterexample :
    mmuRead (mmuWrite mmuInit 0xFF0F 0x00) 0xFF0F &&& 0xE0 ≠ 0xE0 := by
  decide

theorem doDMATransfer_shape (v : Nat) (s : MMU) :
    ∃ o, doDMATransfer s v = { s with oam := o } := by
  unfold doDMATransfer
  generalize List.range 0xA0 = l
  induction l generalizing s with
  | nil => exact ⟨s.oam, rfl⟩
  | cons i t ih =>
    obtain ⟨o, ho⟩ := ih { s with oam := upd s.oam i (mmuRead s ((v <<< 8) + i)) }
    exact ⟨o, by rw [List.foldl_cons, ho]⟩

/-! ## Region shape lemmas for the MMU write decoder -/

theorem mmuWrite_rom_none (s : MMU) (a v : Nat) (hc : s.cartridge = none)
    (h : a % 0x10000 < 0x8000) : mmuWrite s a v = s := by
  unfold mmuWrite
  simp only [hc, h, if_true, ite_true]

theorem mmuWrite_rom_some (s : MMU) (c : Cartridge) (a v : Nat) (hc : s.cartridge = some c)
    (h : a % 0x10000 < 0x8000) :
    mmuWrite s a v = { s with cartridge := some (cartWriteROM c (a % 0x10000) (v % 0x100)) } := by
  unfold mmuWrite
  simp only [hc, h, if_true, ite_true]

theorem mmuWrite_vram (s : MMU) (a v : Nat) (h1 : 0x8000 ≤ a % 0x10000) (h2 : a % 0x10000 < 0xA000) :
    mmuWrite s a v = { s with vram := upd s.vram (a % 0x10000 - 0x8000) (v % 0x100) } := by
  have A1 : ¬ a % 0x10000 < 0x8000 := by omega
  unfold mmuWrite
  simp only [A1, h2, if_true, if_false, ite_true, ite_false]

theorem mmuWrite_extram_none (s : MMU) (a v : Nat) (hc : s.cartridge = none)
    (h1 : 0xA000 ≤ a % 0x10000) (h2 : a % 0x10000 < 0xC000) : mmuWrite s a v = s := by
  have A1 : ¬ a % 0x10000 < 0x8000 := by omega
  have A2 : ¬ a % 0x10000 < 0xA000 := by omega
  unfold mmuWrite
  simp only [hc, A1, A2, h2, if_true, if_false, ite_true, ite_false]

theorem mmuWrite_extram_some (s : MMU) (c : Cartridge) (a v : Nat) (hc : s.cartridge = some c)
    (h1 : 0xA000 ≤ a % 0x10000) (h2 : a % 0x10000 < 0xC000) :
    mmuWrite s a v =
      { s with cartridge := some (cartWriteRAM c (a % 0x10000 - 0xA000) (v % 0x100)) } := by
  have A1 : ¬ a % 0x10000 < 0x8000 := by omega
  have A2 : ¬ a % 0x10000 < 0xA000 := by omega
  unfold mmuWrite
  simp only [hc, A1, A2, h2, if_true, if_false, ite_true, ite_false]

theorem mmuWrite_wram (s : MMU) (a v : Nat) (h1 : 0xC000 ≤ a % 0x10000) (h2 : a % 0x10000 < 0xE000) :
    mmuWrite s a v = { s with wram := upd s.wram (a % 0x10000 - 0xC000) (v % 0x100) } := by
  have A1 : ¬ a % 0x10000 < 0x8000 := by omega
  have A2 : ¬ a % 0x10000 < 0xA000 := by omega
  have A3 : ¬ a % 0x10000 < 0xC000 := by omega
  unfold mmuWrite
  simp only [A1, A2, A3, h2, if_true, if_false, ite_true, ite_false]

theorem mmuWrite_echo (s : MMU) (a v : Nat) (h1 : 0xE000 ≤ a % 0x10000) (h2 : a % 0x10000 < 0xFE00) :
    mmuWrite s a v = { s with wram := upd s.wram (a % 0x10000 - 0xE000) (v % 0x100) } := by
  have A1 : ¬ a % 0x10000 < 0x8000 := by omega
  have A2 : ¬ a % 0x10000 < 0xA000 := by omega
  have A3 : ¬ a % 0x10000 < 0xC000 := by omega
  have A4 : ¬ a % 0x10000 < 0xE000 := by omega
  unfold mmuWrite
  simp only [A1, A2, A3, A4, h2, if_true, if_false, ite_true, ite_false]

theorem mmuWrite_oam (s : MMU) (a v : Nat) (h1 : 0xFE00 ≤ a % 0x10000) (h2 : a % 0x10000 < 0xFEA0) :
    mmuWrite s a v = { s with oam := upd s.oam (a % 0x10000 - 0xFE00) (v % 0x100) } := by
  have A1 : ¬ a % 0x10000 < 0x8000 := by omega
  have A2 : ¬ a % 0x10000 < 0xA000 := by omega
  have A3 : ¬ a % 0x10000 < 0xC000 := by omega
  have A4 : ¬ a % 0x10000 < 0xE000 := by omega
  have A5 : ¬ a % 0x10000 < 0xFE00 := by omega
  unfold mmuWrite
  simp only [A1, A2, A3, A4, A5, h2, if_true, if_false, ite_true, ite_false]

theorem mmuWrite_unusable (s : MMU) (a v : Nat) (h1 : 0xFEA0 ≤ a % 0x10000)
    (h2 : a % 0x10000 < 0xFF00) : mmuWrite s a v = s := by
  have A1 : ¬ a % 0x10000 < 0x8000 := by omega
  have A2 : ¬ a % 0x10000 < 0xA000 := by omega
  have A3 : ¬ a % 0x10000 < 0xC000 := by omega
  have A4 : ¬ a % 0x10000 < 0xE000 := by omega
  have A5 : ¬ a % 0x10000 < 0xFE00 := by omega
  have A6 : ¬ a % 0x10000 < 0xFEA0 := by omega
  unfold mmuWrite
  simp only [A1, A2, A3, A4, A5, A6, h2, if_true, if_false, ite_true, ite_false]

theorem mmuWrite_io_other (s : MMU) (a v : Nat) (h1 : 0xFF00 ≤ a % 0x10000)
    (h2 : a % 0x10000 < 0xFF80)
    (hj : a % 0x10000 ≠ 0xFF00) (hd : a % 0x10000 ≠ 0xFF04)
    (hap : ¬(0xFF10 ≤ a % 0x10000 ∧ a % 0x10000 ≤ 0xFF3F))
    (hly : a % 0x10000 ≠ 0xFF44) (hdma : a % 0x10000 ≠ 0xFF46) :
    mmuWrite s a v = { s with io := upd s.io (a % 0x10000 - 0xFF00) (v % 0x100) } := by
  have A1 : ¬ a % 0x10000 < 0x8000 := by omega
  have A2 : ¬ a % 0x10000 < 0xA000 := by omega
  have A3 : ¬ a % 0x10000 < 0xC000 := by omega
  have A4 : ¬ a % 0x10000 < 0xE000 := by omega
  have A5 : ¬ a % 0x10000 < 0xFE00 := by omega
  have A6 : ¬ a % 0x10000 < 0xFEA0 := by omega
  have A7 : ¬ a % 0x10000 < 0xFF00 := by omega
  unfold mmuWrite
  simp only [A1, A2, A3, A4, A5, A6, A7, h2, hj, hd, hap, hly, hdma,
    if_true, if_false, ite_true, ite_false]

theorem mmuWrite_joyp (s : MMU) (a v : Nat) (h : a % 0x10000 = 0xFF00) :
    mmuWrite s a v =
      { s with joypad := joypadWrite s.joypad (v % 0x100), io := upd s.io 0x00 (v % 0x100) } := by
  unfold mmuWrite
  simp only [h]
  norm_num

theorem mmuWrite_div (s : MMU) (a v : Nat) (h : a % 0x10000 = 0xFF04) :
    mmuWrite s a v =
      { s with timer := { s.timer with div_counter := 0 }, io := upd s.io 0x04 0 } := by
  unfold mmuWrite
  simp only [h]
  norm_num

theorem mmuWrite_apu (s : MMU) (a v : Nat) (h1 : 0xFF10 ≤ a % 0x10000) (h2 : a % 0x10000 ≤ 0xFF3F) :
    mmuWrite s a v = { s with apu := apuWrite s.apu (a % 0x10000) (v % 0x100) } := by
  have A1 : ¬ a % 0x10000 < 0x8000 := by omega
  have A2 : ¬ a % 0x10000 < 0xA000 := by omega
  have A3 : ¬ a % 0x10000 < 0xC000 := by omega
  have A4 : ¬ a % 0x10000 < 0xE000 := by omega
  have A5 : ¬ a % 0x10000 < 0xFE00 := by omega
  have A6 : ¬ a % 0x10000 < 0xFEA0 := by omega
  have A7 : ¬ a % 0x10000 < 0xFF00 := by omega
  have A8 : a % 0x10000 < 0xFF80 := by omega
  have B1 : a % 0x10000 ≠ 0xFF00 := by omega
  have B2 : a % 0x10000 ≠ 0xFF04 := by omega
  have B3 : 0xFF10 ≤ a % 0x10000 ∧ a % 0x10000 ≤ 0xFF3F := ⟨h1, h2⟩
  unfold mmuWrite
  simp only [A1, A2, A3, A4, A5, A6, A7, A8, B1, B2, B3, and_self,
    if_true, if_false, ite_true, ite_false]

theorem mmuWrite_ly (s : MMU) (a v : Nat) (h : a % 0x10000 = 0xFF44) :
    mmuWrite s a v = { s with io := upd s.io 0x44 0 } := by
  unfold mmuWrite
  simp only [h]
  norm_num

theorem mmuWrite_dma (s : MMU) (a v : Nat) (h : a % 0x10000 = 0xFF46) :
    mmuWrite s a v =
      { doDMATransfer s (v % 0x100) with
          io := upd (doDMATransfer s (v % 0x100)).io 0x46 (v % 0x100) } := by
  unfold mmuWrite
  simp only [h]
  norm_num

theorem mmuWrite_hram (s : MMU) (a v : Nat) (h1 : 0xFF80 ≤ a % 0x10000)
    (h2 : a % 0x10000 < 0xFFFF) :
    mmuWrite s a v = { s with hram := upd s.hram (a % 0x10000 - 0xFF80) (v % 0x100) } := by
  have A1 : ¬ a % 0x10000 < 0x8000 := by omega
  have A2 : ¬ a % 0x10000 < 0xA000 := by omega
  have A3 : ¬ a % 0x10000 < 0xC000 := by omega
  have A4 : ¬ a % 0x10000 < 0xE000 := by omega
  have A5 : ¬ a % 0x10000 < 0xFE00 := by omega
  have A6 : ¬ a % 0x10000 < 0xFEA0 := by omega
  have A7 : ¬ a % 0x10000 < 0xFF00 := by omega
  have A8 : ¬ a % 0x10000 < 0xFF80 := by omega
  unfold mmuWrite
  simp only [A1, A2, A3, A4, A5, A6, A7, A8, h2, if_true, if_false, ite_true, ite_false]

theorem mmuWrite_ie (s : MMU) (a v : Nat) (h : a % 0x10000 = 0xFFFF) :
    mmuWrite s a v = { s with ie_register := v % 0x100 } := by
  have A1 : ¬ a % 0x10000 < 0x8000 := by omega
  have A2 : ¬ a % 0x10000 < 0xA000 := by omega
  have A3 : ¬ a % 0x10000 < 0xC000 := by omega
  have A4 : ¬ a % 0x10000 < 0xE000 := by omega
  have A5 : ¬ a % 0x10000 < 0xFE00 := by omega
  have A6 : ¬ a % 0x10000 < 0xFEA0 := by omega
  have A7 : ¬ a % 0x10000 < 0xFF00 := by omega
  have A8 : ¬ a % 0x10000 < 0xFF80 := by omega
  have A9 : ¬ a % 0x10000 < 0xFFFF := by omega
  unfold mmuWrite
  simp only [A1, A2, A3, A4, A5, A6, A7, A8, A9, if_true, if_false, ite_true, ite_false]

theorem mmuWrite_io0F (s : MMU) (a v : Nat) :
    (mmuWrite s a v).io 0x0F =
      if a % 0x10000 = 0xFF0F then v % 0x100 else s.io 0x0F := by
  have hlt : a % 0x10000 < 0x10000 := Nat.mod_lt _ (by norm_num)
  by_cases hA : a % 0x10000 = 0xFF0F
  · rw [if_pos hA,
      mmuWrite_io_other s a v (by omega) (by omega) (by omega) (by omega) (by omega)
        (by omega) (by omega)]
    rw [hA]
    simp [upd]
  · rw [if_neg hA]
    by_cases h1 : a % 0x10000 < 0x8000
    · cases hc : s.cartridge with
      | none => rw [mmuWrite_rom_none s a v hc h1]
      | some c => rw [mmuWrite_rom_some s c a v hc h1]
    · by_cases h2 : a % 0x10000 < 0xA000
      · rw [mmuWrite_vram s a v (by omega) h2]
      · by_cases h3 : a % 0x10000 < 0xC000
        · cases hc : s.cartridge with
          | none => rw [mmuWrite_extram_none s a v hc (by omega) h3]
          | some c => rw [mmuWrite_extram_some s c a v hc (by omega) h3]
        · by_cases h4 : a % 0x10000 < 0xE000
          · rw [mmuWrite_wram s a v (by omega) h4]
          · by_cases h5 : a % 0x10000 < 0xFE00
            · rw [mmuWrite_echo s a v (by omega) h5]
            · by_cases h6 : a % 0x10000 < 0xFEA0
              · rw [mmuWrite_oam s a v (by omega) h6]
              · by_cases h7 : a % 0x10000 < 0xFF00
                · rw [mmuWrite_unusable s a v (by omega) h7]
                · by_cases h8 : a % 0x10000 < 0xFF80
                  · by_cases hj : a % 0x10000 = 0xFF00
                    · rw [mmuWrite_joyp s a v hj]
                      simp [upd]
                    · by_cases hd : a % 0x10000 = 0xFF04
                      · rw [mmuWrite_div s a v hd]
                        simp [upd]
                      · by_cases hap : 0xFF10 ≤ a % 0x10000 ∧ a % 0x10000 ≤ 0xFF3F
                        · rw [mmuWrite_apu s a v hap.1 hap.2]
                        · by_cases hly : a % 0x10000 = 0xFF44
                          · rw [mmuWrite_ly s a v hly]
                            simp [upd]
                          · by_cases hdma : a % 0x10000 = 0xFF46
                            · rw [mmuWrite_dma s a v hdma]
                              obtain ⟨o, ho⟩ := doDMATransfer_shape (v % 0x100) s
                              rw [ho]
                              simp [upd]
                            · rw [mmuWrite_io_other s a v (by omega) h8 hj hd hap hly hdma]
                              simp only [upd]
                              rw [if_neg (by omega)]
                  · by_cases h9 : a % 0x10000 < 0xFFFF
                    · rw [mmuWrite_hram s a v (by omega) h9]
                    · rw [mmuWrite_ie s a v (by omega)]

/-- C3 (amended): reading 0xFF0F through the MMU returns exactly the stored IF
byte — bits 5–7 are NOT forced to 1 on read.  After any sequence of bus writes
the value read at 0xFF0F is the last byte written to 0xFF0F, if any, else the
previously stored byte (0xE0 from reset, so bits 5–7 read as 1 only until
software overwrites them; see the counterexample). -/
theorem C3_if_read_returns_stored (s : MMU) (ws : List (Nat × Nat)) :
    mmuRead (busWrites s ws) 0xFF0F =
      ws.foldl (fun acc w => if w.1 % 0x10000 = 0xFF0F then w.2 % 0x100 else acc)
        (mmuRead s 0xFF0F) := by
  induction ws generalizing s with
  | nil => rfl
  | cons w t ih =>
    rw [busWrites, List.foldl_cons, List.foldl_cons, ← busWrites, ih]
    congr 1
    rw [mmuRead_FF0F, mmuRead_FF0F, mmuWrite_io0F]
    by_cases h : w.1 % 0x10000 = 0xFF0F
    · rw [if_pos h, if_pos h]
      omega
    · rw [if_neg h, if_neg h]

/-! ## C10 — halted step -/

/-- C10 counterexample: a state satisfying the claim's premise (halted, no
pending enabled interrupt) in which `CPU::step` nevertheless changes IME: when
`ime_scheduled` is set (an EI whose delayed enable is still pending), the step
applies it before the halted check, so IME flips from false to true. -/
theorem C10_counterexample :
    haltedSchedCPU.halted = true ∧
    mmuRead mmuInit 0xFF0F &&& mmuRead mmuInit 0xFFFF &&& 0x1F = 0 ∧
    haltedSchedCPU.ime = false ∧
    (cpuStep haltedSchedCPU mmuInit).1.ime = true := by
  decide

/-- C10 (amended): if the CPU is halted with `IF & IE & 0x1F = 0` AND no
EI-delayed IME enable is pending, `CPU::step` advances the cycle counter by
exactly 4 T-cycles and changes nothing else — registers, PC, SP, IME, the
halted flag and the whole bus state are untouched. -/
theorem C10_halted_step (c : CPUState) (m : MMU)
    (hh : c.halted = true) (hs : c.ime_scheduled = false)
    (hp : mmuRead m 0xFF0F &&& mmuRead m 0xFFFF &&& 0x1F = 0)
    (hb : c.cycles + 4 < 0x100000000) :
    cpuStep c m = ({ c with cycles := c.cycles + 4 }, m) := by
  simp [cpuStep, hs, hh, hp, Nat.mod_eq_of_lt hb]

/-- C10 witness: the amended theorem applied to a concrete halted CPU on the
reset bus. -/
theorem C10_witness :
    haltedCPU.halted = true ∧ haltedCPU.ime_scheduled = false ∧
    mmuRead mmuInit 0xFF0F &&& mmuRead mmuInit 0xFFFF &&& 0x1F = 0 ∧
    cpuStep haltedCPU mmuInit = ({ haltedCPU with cycles := haltedCPU.cycles + 4 }, mmuInit) :=
  ⟨rfl, rfl, by decide, C10_halted_step haltedCPU mmuInit rfl rfl (by decide) (by decide)⟩

/-! ## C5 — interrupt dispatch cost -/

/-- C5 counterexample: in a concrete state with IME set and VBlank pending,
`CPU::handleInterrupts` advances the cycle counter by 28 T-cycles, not the
claimed 20 (the 20-cycle overhead plus 4 per stack-push byte write). -/
theorem C5_counterexample :
    irqCPU.ime = true ∧
    mmuRead irqMMU 0xFF0F &&& mmuRead irqMMU 0xFFFF &&& 0x1F ≠ 0 ∧
    (handleInterrupts irqCPU irqMMU).1.cycles = irqCPU.cycles + 28 ∧
    (handleInterrupts irqCPU irqMMU).1.cycles ≠ irqCPU.cycles + 20 := by
  decide

/-- C5 (amended): with IME set and `IF & IE & 0x1F ≠ 0`, servicing the pending
interrupt clears IME, wakes the CPU, decrements SP by 2 (pushing PC), jumps to
the vector `0x40 + 8*i` of the lowest-numbered pending bit, and advances the
cycle counter by exactly 28 T-cycles: the 20-T-cycle dispatch overhead plus
two charged 4-T-cycle stack writes. -/
theorem C5_dispatch (c : CPUState) (m : MMU)
    (hime : c.ime = true) (hb : c.cycles + 28 < 0x100000000)
    (hp : mmuRead m 0xFF0F &&& mmuRead m 0xFFFF &&& 0x1F ≠ 0) :
    (handleInterrupts c m).1.cycles = c.cycles + 28 ∧
    (handleInterrupts c m).1.PC =
      0x0040 + lowestPending (mmuRead m 0xFF0F &&& mmuRead m 0xFFFF &&& 0x1F) * 0x08 ∧
    (handleInterrupts c m).1.ime = false ∧
    (handleInterrupts c m).1.halted = false ∧
    (handleInterrupts c m).1.SP = (c.SP + 0x10000 - 2) % 0x10000 := by
  simp only [handleInterrupts, cpuPush16, cpuWrite16, cpuWrite8, hime]
  rw [if_neg (by simp), if_neg hp]
  refine ⟨?_, rfl, rfl, rfl, rfl⟩
  simp only []
  omega

/-- C5 witness: the amended dispatch theorem at a concrete pending-VBlank
state. -/
theorem C5_witness :
    irqCPU.ime = true ∧ irqCPU.cycles + 28 < 0x100000000 ∧
    mmuRead irqMMU 0xFF0F &&& mmuRead irqMMU 0xFFFF &&& 0x1F ≠ 0 ∧
    (handleInterrupts irqCPU irqMMU).1.cycles = irqCPU.cycles + 28 :=
  ⟨rfl, by decide, by decide,
    (C5_dispatch irqCPU irqMMU rfl (by decide) (by decide)).1⟩

/-! ## C4 — EI / NOP / DI timing -/

/-- C4 counterexample: running `EI; NOP; DI` (at 0xC000) with IE = 1 and
IF = 1.  After the EI step the enable is only scheduled, but the next
`CPU::step` applies it BEFORE fetching the NOP, so the NOP executes with IME
already true and the pending VBlank interrupt IS serviced immediately after
the NOP: the second step ends at PC = 0x0040 with IF bit 0 consumed —
contradicting the claim that the NOP runs with IME false and that no interrupt
is serviced during the sequence. -/
theorem C4_counterexample :
    (cpuStep eiNopDiCPU eiNopDiMMU).1.ime = false ∧
    (cpuStep eiNopDiCPU eiNopDiMMU).1.ime_scheduled = true ∧
    (cpuStep eiNopDiCPU eiNopDiMMU).1.PC = 0xC001 ∧
    (cpuStep (cpuStep eiNopDiCPU eiNopDiMMU).1 (cpuStep eiNopDiCPU eiNopDiMMU).2).1.PC = 0x0040 ∧
    mmuRead (cpuStep (cpuStep eiNopDiCPU eiNopDiMMU).1 (cpuStep eiNopDiCPU eiNopDiMMU).2).2
      0xFF0F &&& 0x01 = 0 := by
  decide

/-- C4 (amended): for `EI; NOP; DI` with IE = 1, IF = 1: the EI step itself
completes with IME still false (`ime_scheduled` set, no interrupt serviced,
IF intact); the scheduled enable is applied at the start of the next step,
before the NOP's fetch — that step is indistinguishable from one starting
with IME already true — so the NOP executes under IME and the pending VBlank
interrupt is serviced right after it: IME cleared, IF bit 0 cleared, the
return address 0xC002 pushed (SP = 0xFFFC), PC = 0x0040.  The DI is never
reached. -/
theorem C4_amended :
    (cpuStep eiNopDiCPU eiNopDiMMU).1.ime = false ∧
    (cpuStep eiNopDiCPU eiNopDiMMU).1.ime_scheduled = true ∧
    (cpuStep eiNopDiCPU eiNopDiMMU).1.PC = 0xC001 ∧
    mmuRead (cpuStep eiNopDiCPU eiNopDiMMU).2 0xFF0F = 0x01 ∧
    (cpuStep (cpuStep eiNopDiCPU eiNopDiMMU).1 (cpuStep eiNopDiCPU eiNopDiMMU).2).1 =
      (cpuStep { (cpuStep eiNopDiCPU eiNopDiMMU).1 with ime := true, ime_scheduled := false }
        (cpuStep eiNopDiCPU eiNopDiMMU).2).1 ∧
    (cpuStep (cpuStep eiNopDiCPU eiNopDiMMU).1 (cpuStep eiNopDiCPU eiNopDiMMU).2).1.PC = 0x0040 ∧
    (cpuStep (cpuStep eiNopDiCPU eiNopDiMMU).1 (cpuStep eiNopDiCPU eiNopDiMMU).2).1.ime = false ∧
    (cpuStep (cpuStep eiNopDiCPU eiNopDiMMU).1 (cpuStep eiNopDiCPU eiNopDiMMU).2).1.SP = 0xFFFC ∧
    mmuRead (cpuStep (cpuStep eiNopDiCPU eiNopDiMMU).1 (cpuStep eiNopDiCPU eiNopDiMMU).2).2 0xFF0F = 0 ∧
    mmuRead (cpuStep (cpuStep eiNopDiCPU eiNopDiMMU).1 (cpuStep eiNopDiCPU eiNopDiMMU).2).2 0xFFFC = 0x02 ∧
    mmuRead (cpuStep (cpuStep eiNopDiCPU eiNopDiMMU).1 (cpuStep eiNopDiCPU eiNopDiMMU).2).2 0xFFFD = 0xC0 := by
  decide

/-! ## C6 — scanline changes -/

theorem lor4_and64 (x : Nat) : (x ||| 4) &&& 64 = x &&& 64 := by
  apply Nat.eq_of_testBit_eq
  intro i
  simp only [Nat.testBit_lor, Nat.testBit_land, Bool.or_and_distrib_right]
  rcases eq_or_ne i 6 with h | h
  · subst h
    rw [show (4 : Nat).testBit 6 = false from by decide]
    simp
  · have h64 : (64 : Nat).testBit i = false := by
      have := @Nat.testBit_two_pow_of_ne 6 i (Ne.symm h)
      simpa using this
    simp [h64]

theorem tb_mod256 (x k : Nat) (hk : k < 8) : (x % 0x100).testBit k = x.testBit k := by
  rw [show (0x100 : Nat) = 2 ^ 8 from by norm_num, Nat.testBit_mod_two_pow]
  simp [hk]

theorem tb2_or4 (x : Nat) : (x ||| 4).testBit 2 = true := by
  rw [Nat.testBit_lor, show (4 : Nat).testBit 2 = true from by decide]
  simp

theorem tb2_andFB (x : Nat) : (x &&& 0xFB).testBit 2 = false := by
  rw [Nat.testBit_land, show (0xFB : Nat).testBit 2 = false from by decide]
  simp

theorem tb2_andFC (x : Nat) : (x &&& 0xFC).testBit 2 = x.testBit 2 := by
  rw [Nat.testBit_land, show (0xFC : Nat).testBit 2 = true from by decide]
  simp

theorem tb2_or1 (x : Nat) : (x ||| 1).testBit 2 = x.testBit 2 := by
  rw [Nat.testBit_lor, show (1 : Nat).testBit 2 = false from by decide]
  simp

theorem tb2_or2 (x : Nat) : (x ||| 2).testBit 2 = x.testBit 2 := by
  rw [Nat.testBit_lor, show (2 : Nat).testBit 2 = false from by decide]
  simp

theorem tb1_or2 (x : Nat) : (x ||| 2).testBit 1 = true := by
  rw [Nat.testBit_lor, show (2 : Nat).testBit 1 = true from by decide]
  simp

theorem tb1_or1 (x : Nat) : (x ||| 1).testBit 1 = x.testBit 1 := by
  rw [Nat.testBit_lor, show (1 : Nat).testBit 1 = false from by decide]
  simp

theorem C6aux_hblank (p : PPUState) (m : MMU) (cyc : Nat)
    (hmode : p.mode = .HBLANK) (hlcd : mmuRead m 0xFF40 &&& 0x80 ≠ 0)
    (hcyc : 204 ≤ p.mode_cycles + cyc) (hline : p.scanline < 144) :
    (ppuStep cyc p m).1.scanline = p.scanline + 1 ∧
    ((ppuStep cyc p m).2).io 0x44 = p.scanline + 1 ∧
    ((((ppuStep cyc p m).2).io 0x41).testBit 2 = true ↔ p.scanline + 1 = mmuRead m 0xFF45) ∧
    (mmuRead m 0xFF41 &&& 0x40 ≠ 0 → p.scanline + 1 = mmuRead m 0xFF45 →
      (((ppuStep cyc p m).2).io 0x0F).testBit 1 = true) := by
  have h44 : (p.scanline + 1) % 0x100 = p.scanline + 1 := Nat.mod_eq_of_lt (by omega)
  rw [mmuRead_FF45, mmuRead_FF41]
  have htb := tb_mod256
  by_cases hco : m.io 0x45 % 0x100 = p.scanline + 1 <;>
    [skip; have hco' : ¬(p.scanline + 1 = m.io 0x45 % 0x100) := fun h => hco h.symm] <;>
  by_cases hst : m.io 0x41 % 0x100 &&& 0x40 = 0 <;>
  by_cases h144 : p.scanline + 1 = 144 <;>
  simp only [ppuStep, hmode, mmuRead_FF41, mmuRead_FF45, mmuRead_FF0F,
    mmuWrite_FF41, mmuWrite_FF0F, ppuSetMode] <;>
  rw [if_neg (by simpa using hlcd), if_pos (by simpa using hcyc)] <;>
  simp [upd, h44, lor4_and64, hco, hst, h144, PpuMode.toNat] <;>
  simp_all [upd, tb_mod256, tb2_or4, tb2_andFB, tb2_andFC, tb2_or1, tb2_or2, tb1_or2, tb1_or1,
    show Nat.testBit 4 2 = true from by decide, show Nat.testBit 252 2 = true from by decide,
    show Nat.testBit 1 2 = false from by decide, show Nat.testBit 2 2 = false from by decide,
    show Nat.testBit 2 1 = true from by decide, show Nat.testBit 1 1 = false from by decide,
    show Nat.testBit 251 2 = false from by decide]

theorem C6aux_vblank (p : PPUState) (m : MMU) (cyc : Nat)
    (hmode : p.mode = .VBLANK) (hlcd : mmuRead m 0xFF40 &&& 0x80 ≠ 0)
    (hcyc : 456 ≤ p.mode_cycles + cyc) (hwrap : p.scanline + 1 ≠ 154) :
    (ppuStep cyc p m).1.scanline = p.scanline + 1 ∧
    ((ppuStep cyc p m).2).io 0x44 = (p.scanline + 1) % 0x100 ∧
    ((ppuStep cyc p m).2).io 0x41 = m.io 0x41 ∧
    ((ppuStep cyc p m).2).io 0x0F = m.io 0x0F := by
  simp only [ppuStep, hmode]
  rw [if_neg (by simpa using hlcd), if_pos (by simpa using hcyc)]
  simp [upd, hwrap]

theorem C6aux_wrap (p : PPUState) (m : MMU) (cyc : Nat)
    (hmode : p.mode = .VBLANK) (hlcd : mmuRead m 0xFF40 &&& 0x80 ≠ 0)
    (hcyc : 456 ≤ p.mode_cycles + cyc) (hwrap : p.scanline = 153) :
    (ppuStep cyc p m).1.scanline = 0 ∧
    ((ppuStep cyc p m).2).io 0x44 = 0 ∧
    ((ppuStep cyc p m).2).io 0x0F = m.io 0x0F ∧
    (((ppuStep cyc p m).2).io 0x41).testBit 2 = (m.io 0x41).testBit 2 := by
  simp only [ppuStep, hmode, ppuSetMode, mmuRead_FF41, mmuWrite_FF41]
  rw [if_neg (by simpa using hlcd), if_pos (by simpa using hcyc)]
  simp [upd, hwrap, PpuMode.toNat, tb_mod256, tb2_andFC, tb2_or2,
    show Nat.testBit 252 2 = true from by decide, show Nat.testBit 2 2 = false from by decide]


/-- C6 counterexample: a scanline change during V-blank (144 → 145) with
LYC = 145 and STAT bit 6 enabled.  The PPU writes the new line to LY but does
NOT evaluate the LYC coincidence: STAT bit 2 stays 0 and no STAT interrupt
(IF bit 1) is raised — refuting the claim for V-blank scanline changes. -/
theorem C6_counterexample :
    vblankPPU.mode = PpuMode.VBLANK ∧
    mmuRead vblankMMU 0xFF45 = 145 ∧
    mmuRead vblankMMU 0xFF41 &&& 0x40 ≠ 0 ∧
    (ppuStep 456 vblankPPU vblankMMU).1.scanline = 145 ∧
    mmuRead (ppuStep 456 vblankPPU vblankMMU).2 0xFF44 = 145 ∧
    mmuRead (ppuStep 456 vblankPPU vblankMMU).2 0xFF41 &&& 0x04 = 0 ∧
    mmuRead (ppuStep 456 vblankPPU vblankMMU).2 0xFF0F &&& 0x02 = 0 := by
  decide

/-- C6 (amended): on scanline changes driven by the end of H-blank (visible
lines), the PPU writes the new line to LY, sets STAT bit 2 iff LYC equals the
new LY (clearing it otherwise), and raises IF bit 1 when STAT bit 6 is enabled
and LYC = LY.  On scanline changes during V-blank, only LY is updated: STAT
and IF are untouched, and on the wrap back to line 0 only the mode bits of
STAT change (bit 2 is preserved) while IF is untouched. -/
theorem C6_scanline_updates :
    (∀ (p : PPUState) (m : MMU) (cyc : Nat),
      p.mode = .HBLANK → mmuRead m 0xFF40 &&& 0x80 ≠ 0 → 204 ≤ p.mode_cycles + cyc →
      p.scanline < 144 →
      (ppuStep cyc p m).1.scanline = p.scanline + 1 ∧
      ((ppuStep cyc p m).2).io 0x44 = p.scanline + 1 ∧
      ((((ppuStep cyc p m).2).io 0x41).testBit 2 = true ↔ p.scanline + 1 = mmuRead m 0xFF45) ∧
      (mmuRead m 0xFF41 &&& 0x40 ≠ 0 → p.scanline + 1 = mmuRead m 0xFF45 →
        (((ppuStep cyc p m).2).io 0x0F).testBit 1 = true)) ∧
    (∀ (p : PPUState) (m : MMU) (cyc : Nat),
      p.mode = .VBLANK → mmuRead m 0xFF40 &&& 0x80 ≠ 0 → 456 ≤ p.mode_cycles + cyc →
      p.scanline + 1 ≠ 154 →
      (ppuStep cyc p m).1.scanline = p.scanline + 1 ∧
      ((ppuStep cyc p m).2).io 0x44 = (p.scanline + 1) % 0x100 ∧
      ((ppuStep cyc p m).2).io 0x41 = m.io 0x41 ∧
      ((ppuStep cyc p m).2).io 0x0F = m.io 0x0F) ∧
    (∀ (p : PPUState) (m : MMU) (cyc : Nat),
      p.mode = .VBLANK → mmuRead m 0xFF40 &&& 0x80 ≠ 0 → 456 ≤ p.mode_cycles + cyc →
      p.scanline = 153 →
      (ppuStep cyc p m).1.scanline = 0 ∧
      ((ppuStep cyc p m).2).io 0x44 = 0 ∧
      ((ppuStep cyc p m).2).io 0x0F = m.io 0x0F ∧
      (((ppuStep cyc p m).2).io 0x41).testBit 2 = (m.io 0x41).testBit 2) :=
  ⟨C6aux_hblank, C6aux_vblank, C6aux_wrap⟩

/-- C6 witness: the H-blank part of the amended theorem applied to a concrete
line-10 state with LYC = 11 and STAT bit 6 set. -/
theorem C6_witness :
    (hblankPPU.mode = .HBLANK ∧ mmuRead hblankMMU 0xFF40 &&& 0x80 ≠ 0 ∧
      204 ≤ hblankPPU.mode_cycles + 0 ∧ hblankPPU.scanline < 144) ∧
    ((ppuStep 0 hblankPPU hblankMMU).1.scanline = hblankPPU.scanline + 1 ∧
      ((ppuStep 0 hblankPPU hblankMMU).2).io 0x44 = hblankPPU.scanline + 1 ∧
      ((((ppuStep 0 hblankPPU hblankMMU).2).io 0x41).testBit 2 = true ↔
        hblankPPU.scanline + 1 = mmuRead hblankMMU 0xFF45) ∧
      (mmuRead hblankMMU 0xFF41 &&& 0x40 ≠ 0 →
        hblankPPU.scanline + 1 = mmuRead hblankMMU 0xFF45 →
        (((ppuStep 0 hblankPPU hblankMMU).2).io 0x0F).testBit 1 = true)) :=
  ⟨⟨rfl, by decide, by decide, by decide⟩,
    C6_scanline_updates.1 hblankPPU hblankMMU 0 rfl (by decide) (by decide) (by decide)⟩

/-! ## C7, C8, C9 -/

set_option maxRecDepth 8192 in
/-- C7: for every A and every flag state, the source's `CPU::DAA` computes
exactly the spec's BCD adjustment: after addition (N=0) it adds 0x06 when H or
a low nibble above 9 demands it, then 0x60 (setting C) when C or A > 0x99
demands it; after subtraction (N=1) it subtracts 0x06 under H and 0x60 under
C; finally Z = (A = 0), H = 0, N is untouched and C is preserved/promoted. -/
theorem C7_daa (a : Fin 256) (z n h c : Bool) :
    (cpuDAA { cpuInit with A := a.val, F := flagByte z n h c }).A = (daaSpec n h c a.val).1 ∧
    (cpuDAA { cpuInit with A := a.val, F := flagByte z n h c }).F =
      flagByte (decide ((daaSpec n h c a.val).1 = 0)) n false (daaSpec n h c a.val).2 := by
  revert z n h c
  revert a
  decide

/-- C8: on an MBC1 cartridge with at least 0x8001 bytes of ROM (and no upper
bank bits latched), writing 0x0A to 0x0000 enables RAM, then writing 0x02 to
0x2100 selects ROM bank 2, so a read at 0x4000 returns the byte at ROM offset
0x8000; and in the whole 0x2000–0x3FFF region a written value whose low 5 bits
are 0 selects bank 1. -/
theorem C8_mbc1_bank_select (cart : Cartridge)
    (hmbc : cart.mbc_type = 0x01 ∨ cart.mbc_type = 0x02 ∨ cart.mbc_type = 0x03)
    (hbank : cart.rom_bank &&& 0x60 = 0)
    (hsize : 0x8001 ≤ cart.romSize) :
    (cartWriteROM cart 0x0000 0x0A).ram_enabled = true ∧
    (cartWriteROM (cartWriteROM cart 0x0000 0x0A) 0x2100 0x02).rom_bank = 2 ∧
    cartReadROM (cartWriteROM (cartWriteROM cart 0x0000 0x0A) 0x2100 0x02) 0x4000 =
      cart.romData 0x8000 ∧
    (∀ adr v, 0x2000 ≤ adr → adr < 0x4000 → v &&& 0x1F = 0 →
      (cartWriteROM cart adr v).rom_bank = 1) := by
  have hread : ∀ d : Cartridge, d.rom_bank = 2 → d.romSize = cart.romSize →
      d.romData = cart.romData → cartReadROM d 0x4000 = cart.romData 0x8000 := by
    intro d h1 h2 h3
    unfold cartReadROM
    rw [if_neg (by norm_num), h1, h2, h3,
      show 2 * 0x4000 + (0x4000 - 0x4000) = 0x8000 from by norm_num,
      if_pos (by omega)]
  rcases hmbc with h | h | h <;>
  · refine ⟨?_, ?_, ?_, ?_⟩
    · simp only [cartWriteROM, h]
      norm_num
      decide
    · simp only [cartWriteROM, h]
      norm_num [hbank]
      decide
    · apply hread
      · simp only [cartWriteROM, h]
        norm_num [hbank]
        decide
      · simp only [cartWriteROM, h]
        norm_num
      · simp only [cartWriteROM, h]
        norm_num
    · intro adr v h1 h2 h3
      simp only [cartWriteROM, h]
      rw [if_neg (by omega), if_pos (by omega)]
      simp [h3, hbank]

/-- C8 witness: the bank-select theorem at a concrete 64 KiB MBC1 cartridge
whose byte at ROM offset 0x8000 is 0x5A. -/
theorem C8_witness :
    (mbc1Cart.mbc_type = 0x01 ∨ mbc1Cart.mbc_type = 0x02 ∨ mbc1Cart.mbc_type = 0x03) ∧
    mbc1Cart.rom_bank &&& 0x60 = 0 ∧ 0x8001 ≤ mbc1Cart.romSize ∧
    cartReadROM (cartWriteROM (cartWriteROM mbc1Cart 0x0000 0x0A) 0x2100 0x02) 0x4000 =
      mbc1Cart.romData 0x8000 ∧
    mbc1Cart.romData 0x8000 = 0x5A :=
  ⟨Or.inl rfl, by decide, by decide,
    (C8_mbc1_bank_select mbc1Cart (Or.inl rfl) (by decide) (by decide)).2.2.1, rfl⟩

/-- C9: if the first seven bytes of a save-state file are not the ASCII magic
"GBSTATE" (padded with zeros when the file is short, exactly as the loader's
zero-initialised `strcmp` buffer) or the version byte is not 1, `SaveState::load`
returns failure and leaves the CPU, MMU (with everything it owns: cartridge,
timer, APU, joypad) and PPU exactly unchanged. -/
theorem C9_load_refuses (bs : List Nat) (c : CPUState) (m : MMU) (p : PPUState)
    (h : (List.range 7).map (byteAt bs) ≠ GBSTATE ∨ byteAt bs 7 ≠ 1) :
    saveStateLoad bs c m p = (false, c, m, p) := by
  by_cases hm : (List.range 7).map (byteAt bs) ≠ GBSTATE
  · simp [saveStateLoad, hm]
  · rcases h with h | h
    · exact absurd h hm
    · simp [saveStateLoad, hm, h]

/-- C9 witness: the loader refuses an empty file and changes nothing. -/
theorem C9_witness :
    ((List.range 7).map (byteAt []) ≠ GBSTATE ∨ byteAt [] 7 ≠ 1) ∧
    saveStateLoad [] cpuInit mmuInit ppuInit = (false, cpuInit, mmuInit, ppuInit) :=
  ⟨Or.inl (by decide), C9_load_refuses [] cpuInit mmuInit ppuInit (Or.inl (by decide))⟩

/-! ## C2 — TIMA -/

theorem lor_lt_256 (x y : Nat) (hx : x < 0x100) (hy : y < 0x100) : x ||| y < 0x100 := by
  have h : (0x100 : Nat) = 2 ^ 8 := by norm_num
  rw [h] at hx hy ⊢
  exact Nat.or_lt_two_pow hx hy

theorem timaRun_fst (tma : Nat) :
    ∀ (k t : Nat) (f : Bool), (timaRun tma k (t, f)).1 = (timaRun tma k (t, false)).1 := by
  intro k
  induction k with
  | zero => intro t f; rfl
  | succ k ih =>
    intro t f
    by_cases h : t = 0xFF <;> simp [timaRun, h, ih]

theorem timaRun_snd (tma : Nat) :
    ∀ (k t : Nat) (f : Bool), (timaRun tma k (t, f)).2 = (f || (timaRun tma k (t, false)).2) := by
  intro k
  induction k with
  | zero => intro t f; simp [timaRun]
  | succ k ih =>
    intro t f
    by_cases h : t = 0xFF
    · simp only [timaRun, h, ite_true, if_true]
      rw [ih tma true]
      simp
    · simp only [timaRun, h, ite_false, if_false]
      exact ih (t + 1) f

theorem timaRun_add (tma k1 : Nat) :
    ∀ (k2 : Nat) (p : Nat × Bool), timaRun tma (k1 + k2) p = timaRun tma k2 (timaRun tma k1 p) := by
  induction k1 with
  | zero => intro k2 p; simp [timaRun]
  | succ k ih =>
    intro k2 p
    obtain ⟨t, f⟩ := p
    rw [Nat.succ_add]
    by_cases h : t = 0xFF <;> simp [timaRun, h, ih]

theorem timaRun_lt (tma : Nat) (htma : tma < 0x100) :
    ∀ (k t : Nat), t < 0x100 → (timaRun tma k (t, false)).1 < 0x100 := by
  intro k
  induction k with
  | zero => intro t ht; exact ht
  | succ k ih =>
    intro t ht
    by_cases h : t = 0xFF
    · simpa [timaRun, h, timaRun_fst] using ih tma htma
    · have : t + 1 < 0x100 := by omega
      simpa [timaRun, h] using ih (t + 1) this

theorem timaLoop_exit (threshold fuel : Nat) (s : MMU)
    (h : s.timer.tima_counter < threshold) : timerTimaLoop threshold fuel s = s := by
  cases fuel with
  | zero => rfl
  | succ f =>
    unfold timerTimaLoop
    rw [if_neg (by omega)]

theorem divLoop_exit (fuel : Nat) (s : MMU)
    (h : s.timer.div_counter < 64) : timerDivLoop fuel s = s := by
  cases fuel with
  | zero => rfl
  | succ f =>
    unfold timerDivLoop
    rw [if_neg (by omega)]

theorem timerDivLoop_shape (fuel : Nat) (s : MMU) :
    timerDivLoop fuel s = s ∨
    timerDivLoop fuel s =
      { s with timer := { s.timer with div_counter := 0 }, io := upd s.io 0x04 0 } := by
  cases fuel with
  | zero => exact Or.inl rfl
  | succ f =>
    by_cases hc : 64 ≤ s.timer.div_counter
    · refine Or.inr ?_
      unfold timerDivLoop
      rw [if_pos hc]
      simp only [mmuWrite_FF04]
      refine (divLoop_exit f _ ?_).trans ?_
      · simp
      · simp
    · exact Or.inl (divLoop_exit _ s (by omega))

theorem timaLoop_iter (f : Nat) (s : MMU) (h4 : 4 ≤ s.timer.tima_counter)
    (h5 : s.io 0x05 < 0x100) (h6 : s.io 0x06 < 0x100) (hF : s.io 0x0F < 0x100) :
    timerTimaLoop 4 (f + 1) s =
      timerTimaLoop 4 f
        (if s.io 0x05 = 0xFF then
          { s with timer := { div_counter := s.timer.div_counter, tima_counter := s.timer.tima_counter - 4 },
                   io := upd (upd s.io 0x05 (s.io 0x06)) 0x0F (s.io 0x0F ||| 0x04) }
         else
          { s with timer := { div_counter := s.timer.div_counter, tima_counter := s.timer.tima_counter - 4 },
                   io := upd s.io 0x05 (s.io 0x05 + 1) }) := by
  have hF4 : s.io 0x0F ||| 0x04 < 0x100 := lor_lt_256 _ _ hF (by norm_num)
  by_cases hov : s.io 0x05 = 0xFF
  · rw [if_pos hov]
    simp only [timerTimaLoop]
    rw [if_pos (by omega)]
    simp only [mmuRead_FF05, mmuRead_FF06, mmuRead_FF0F, mmuWrite_FF05, mmuWrite_FF0F]
    simp [upd, Nat.mod_eq_of_lt h5, Nat.mod_eq_of_lt h6, Nat.mod_eq_of_lt hF,
      Nat.mod_eq_of_lt hF4, hov]
  · rw [if_neg hov]
    have h51 : s.io 0x05 + 1 < 0x100 := by omega
    simp only [timerTimaLoop]
    rw [if_pos (by omega)]
    simp only [mmuRead_FF05, mmuRead_FF06, mmuRead_FF0F, mmuWrite_FF05, mmuWrite_FF0F]
    simp [upd, Nat.mod_eq_of_lt h5, Nat.mod_eq_of_lt h51, hov]

theorem timaLoop_run (r : Nat) (hr : r < 4) (k : Nat) :
    ∀ (fuel : Nat) (s : MMU),
    s.io 0x07 = 0x05 → s.io 0x05 < 0x100 → s.io 0x06 < 0x100 → s.io 0x0F < 0x100 →
    s.timer.tima_counter = 4 * k + r → s.timer.tima_counter ≤ fuel →
    (timerTimaLoop 4 fuel s).io 0x05 = (timaRun (s.io 0x06) k (s.io 0x05, false)).1 ∧
    (timerTimaLoop 4 fuel s).io 0x0F =
      (s.io 0x0F ||| (if (timaRun (s.io 0x06) k (s.io 0x05, false)).2 then 0x04 else 0)) ∧
    (timerTimaLoop 4 fuel s).io 0x06 = s.io 0x06 ∧
    (timerTimaLoop 4 fuel s).io 0x07 = s.io 0x07 ∧
    (timerTimaLoop 4 fuel s).io 0x04 = s.io 0x04 ∧
    (timerTimaLoop 4 fuel s).timer.tima_counter = r ∧
    (timerTimaLoop 4 fuel s).timer.div_counter = s.timer.div_counter := by
  induction k with
  | zero =>
    intro fuel s h7 h5 h6 hF hc hf
    rw [timaLoop_exit 4 fuel s (by omega)]
    refine ⟨rfl, ?_, rfl, rfl, rfl, by omega, rfl⟩
    simp [timaRun]
  | succ k ih =>
    intro fuel s h7 h5 h6 hF hc hf
    match fuel with
    | 0 => omega
    | f + 1 =>
      rw [timaLoop_iter f s (by omega) h5 h6 hF]
      by_cases hov : s.io 0x05 = 0xFF
      · rw [if_pos hov]
        obtain ⟨p1, p2, p3, p4, p5, p6, p7⟩ :=
          ih f
            { s with timer := { div_counter := s.timer.div_counter, tima_counter := s.timer.tima_counter - 4 },
                     io := upd (upd s.io 0x05 (s.io 0x06)) 0x0F (s.io 0x0F ||| 0x04) }
            (by simp [upd, h7]) (by simp [upd]; omega) (by simp [upd]; omega)
            (by simp [upd]; exact lor_lt_256 _ _ hF (by norm_num))
            (by simp; omega) (by simp; omega)
        refine ⟨?_, ?_, ?_, ?_, ?_, ?_, ?_⟩
        · rw [p1]
          simp only [upd]
          norm_num
          conv_rhs => simp only [timaRun, hov, ite_true, if_true]
          rw [timaRun_fst (s.io 0x06) k (s.io 0x06) true]
        · rw [p2]
          simp only [upd]
          norm_num
          conv_rhs => simp only [timaRun, hov, ite_true, if_true]
          rw [timaRun_snd (s.io 0x06) k (s.io 0x06) true]
          simp only [Bool.true_or, if_true]
          by_cases hf2 : (timaRun (s.io 0x06) k (s.io 0x06, false)).2 <;>
            simp [hf2, Nat.lor_assoc]
        · rw [p3]
          simp [upd]
        · rw [p4]
          simp [upd]
        · rw [p5]
          simp [upd]
        · rw [p6]
        · rw [p7]
      · rw [if_neg hov]
        obtain ⟨p1, p2, p3, p4, p5, p6, p7⟩ :=
          ih f
            { s with timer := { div_counter := s.timer.div_counter, tima_counter := s.timer.tima_counter - 4 },
                     io := upd s.io 0x05 (s.io 0x05 + 1) }
            (by simp [upd, h7]) (by simp [upd]; omega) (by simp [upd]; omega)
            (by simp [upd]; omega)
            (by simp; omega) (by simp; omega)
        refine ⟨?_, ?_, ?_, ?_, ?_, ?_, ?_⟩
        · rw [p1]
          simp only [upd]
          norm_num
          conv_rhs => simp only [timaRun, hov, ite_false, if_false]
        · rw [p2]
          simp only [upd]
          norm_num
          conv_rhs => simp only [timaRun, hov, ite_false, if_false]
        · rw [p3]
          simp [upd]
        · rw [p4]
          simp [upd]
        · rw [p5]
          simp [upd]
        · rw [p6]
        · rw [p7]

theorem checkTIMA_run (c : Nat) (s : MMU) (k r : Nat) (hr : r < 4)
    (h7 : s.io 0x07 = 0x05) (h5 : s.io 0x05 < 0x100) (h6 : s.io 0x06 < 0x100)
    (hF : s.io 0x0F < 0x100)
    (hc : s.timer.tima_counter + c = 4 * k + r) :
    (timerCheckTIMA c s).io 0x05 = (timaRun (s.io 0x06) k (s.io 0x05, false)).1 ∧
    (timerCheckTIMA c s).io 0x0F =
      (s.io 0x0F ||| (if (timaRun (s.io 0x06) k (s.io 0x05, false)).2 then 0x04 else 0)) ∧
    (timerCheckTIMA c s).io 0x06 = s.io 0x06 ∧
    (timerCheckTIMA c s).io 0x07 = s.io 0x07 ∧
    (timerCheckTIMA c s).io 0x04 = s.io 0x04 ∧
    (timerCheckTIMA c s).timer.tima_counter = r ∧
    (timerCheckTIMA c s).timer.div_counter = s.timer.div_counter := by
  have hread : mmuRead s 0xFF07 = 5 := by
    rw [mmuRead_FF07, h7]
  unfold timerCheckTIMA
  rw [hread]
  norm_num
  have key :=
    timaLoop_run r hr k (s.timer.tima_counter + c)
      { s with timer := { div_counter := s.timer.div_counter,
                          tima_counter := s.timer.tima_counter + c } }
      (by simpa using h7) (by simpa using h5) (by simpa using h6) (by simpa using hF)
      (by simpa using hc) (by simp)
  simpa using key

theorem timerStep_eq (c : Nat) (s : MMU) :
    timerStep c s =
      timerCheckTIMA c
        (timerDivLoop (s.timer.div_counter + c)
          { s with timer := { div_counter := s.timer.div_counter + c,
                              tima_counter := s.timer.tima_counter } }) := rfl

theorem timerStep_run (c : Nat) (s : MMU) (k r : Nat) (hr : r < 4)
    (h7 : s.io 0x07 = 0x05) (h5 : s.io 0x05 < 0x100) (h6 : s.io 0x06 < 0x100)
    (hF : s.io 0x0F < 0x100)
    (hc : s.timer.tima_counter + c = 4 * k + r) :
    (timerStep c s).io 0x05 = (timaRun (s.io 0x06) k (s.io 0x05, false)).1 ∧
    (timerStep c s).io 0x0F =
      (s.io 0x0F ||| (if (timaRun (s.io 0x06) k (s.io 0x05, false)).2 then 0x04 else 0)) ∧
    (timerStep c s).io 0x06 = s.io 0x06 ∧
    (timerStep c s).io 0x07 = s.io 0x07 ∧
    (timerStep c s).timer.tima_counter = r := by
  rw [timerStep_eq]
  rcases timerDivLoop_shape (s.timer.div_counter + c)
      { s with timer := { div_counter := s.timer.div_counter + c,
                          tima_counter := s.timer.tima_counter } } with hsh | hsh <;> rw [hsh]
  · have key := checkTIMA_run c
      { s with timer := { div_counter := s.timer.div_counter + c,
                          tima_counter := s.timer.tima_counter } }
      k r hr (by simpa using h7) (by simpa using h5) (by simpa using h6) (by simpa using hF)
      (by simpa using hc)
    obtain ⟨q1, q2, q3, q4, q5, q6, q7⟩ := key
    exact ⟨by simpa using q1, by simpa using q2, by simpa using q3, by simpa using q4,
      by simpa using q6⟩
  · have key := checkTIMA_run c
      { s with timer := { div_counter := 0, tima_counter := s.timer.tima_counter },
               io := upd s.io 0x04 0 }
      k r hr (by simpa [upd] using h7) (by simpa [upd] using h5) (by simpa [upd] using h6)
      (by simpa [upd] using hF) (by simpa using hc)
    obtain ⟨q1, q2, q3, q4, q5, q6, q7⟩ := key
    refine ⟨?_, ?_, ?_, ?_, ?_⟩
    · have hgoal := q1
      simp only [upd] at hgoal
      norm_num at hgoal
      convert hgoal using 2
    · have hgoal := q2
      simp only [upd] at hgoal
      norm_num at hgoal
      convert hgoal using 2
    · have hgoal := q3
      simp only [upd] at hgoal
      norm_num at hgoal
      convert hgoal using 2
    · have hgoal := q4
      simp only [upd] at hgoal
      norm_num at hgoal
      convert hgoal using 2
    · exact q6

theorem timerFold_run (cs : List Nat) :
    ∀ (s : MMU), s.io 0x07 = 0x05 → s.io 0x05 < 0x100 → s.io 0x06 < 0x100 →
    s.io 0x0F < 0x100 → s.timer.tima_counter < 4 →
    (cs.foldl (fun st c => timerStep c st) s).io 0x05 =
      (timaRun (s.io 0x06) ((s.timer.tima_counter + cs.sum) / 4) (s.io 0x05, false)).1 ∧
    (cs.foldl (fun st c => timerStep c st) s).io 0x0F =
      (s.io 0x0F |||
        (if (timaRun (s.io 0x06) ((s.timer.tima_counter + cs.sum) / 4) (s.io 0x05, false)).2
         then 0x04 else 0)) ∧
    (cs.foldl (fun st c => timerStep c st) s).io 0x06 = s.io 0x06 ∧
    (cs.foldl (fun st c => timerStep c st) s).io 0x07 = s.io 0x07 ∧
    (cs.foldl (fun st c => timerStep c st) s).timer.tima_counter =
      (s.timer.tima_counter + cs.sum) % 4 := by
  induction cs with
  | nil =>
    intro s h7 h5 h6 hF ht
    refine ⟨?_, ?_, rfl, rfl, ?_⟩ <;>
      simp [timaRun, Nat.div_eq_of_lt ht, Nat.mod_eq_of_lt ht]
  | cons c cs ih =>
    intro s h7 h5 h6 hF ht
    rw [List.foldl_cons]
    set k1 := (s.timer.tima_counter + c) / 4 with hk1
    set r1 := (s.timer.tima_counter + c) % 4 with hr1
    obtain ⟨q1, q2, q3, q4, q5⟩ :=
      timerStep_run c s k1 r1 (by omega) h7 h5 h6 hF (by rw [hk1, hr1]; omega)
    have hb5 : (timerStep c s).io 0x05 < 0x100 := by
      rw [q1]
      exact timaRun_lt (s.io 0x06) h6 k1 (s.io 0x05) h5
    have hbF : (timerStep c s).io 0x0F < 0x100 := by
      rw [q2]
      by_cases hfl : (timaRun (s.io 0x06) k1 (s.io 0x05, false)).2 <;>
        simp [hfl] <;> [exact lor_lt_256 _ _ hF (by norm_num); exact hF]
    obtain ⟨w1, w2, w3, w4, w5⟩ :=
      ih (timerStep c s) (by rw [q4, h7]) hb5 (by rw [q3]; exact h6) hbF (by rw [q5]; omega)
    have hks : k1 + ((timerStep c s).timer.tima_counter + cs.sum) / 4 =
        (s.timer.tima_counter + (c :: cs).sum) / 4 := by
      rw [q5, List.sum_cons, hk1, hr1]
      omega
    constructor
    · rw [w1, q3, q1]
      rw [← hks, timaRun_add]
      conv_rhs => rw [← @Prod.mk.eta _ _ (timaRun (s.io 0x06) k1 (s.io 0x05, false))]
      exact (timaRun_fst _ _ _ _).symm
    constructor
    · rw [w2, q3, q1, q2]
      rw [← hks, timaRun_add]
      conv_rhs => rw [← @Prod.mk.eta _ _ (timaRun (s.io 0x06) k1 (s.io 0x05, false))]
      rw [timaRun_snd (s.io 0x06) _ _ ((timaRun (s.io 0x06) k1 (s.io 0x05, false)).2)]
      by_cases f1 : (timaRun (s.io 0x06) k1 (s.io 0x05, false)).2 <;>
        by_cases f2 : (timaRun (s.io 0x06) (((timerStep c s).timer.tima_counter + cs.sum) / 4)
            ((timaRun (s.io 0x06) k1 (s.io 0x05, false)).1, false)).2 <;>
        simp [f1, f2, Nat.lor_assoc]
    refine ⟨by rw [w3, q3], by rw [w4, q4], ?_⟩
    · rw [w5, q5, List.sum_cons, hr1]
      omega

/-- C2: with TAC = 0x05 (timer enabled, 4-M-cycle period) and a fresh TIMA
accumulator, stepping the Timer by any sequence of cycle deltas totalling N*4
M-cycles increments TIMA exactly N times, where each increment follows the
spec's rule (`timaRun`): TIMA := TIMA+1, except from 0xFF it reloads TMA and
raises the timer interrupt, so the final TIMA is the N-fold iterate and IF
bit 2 is set iff some increment overflowed (all other IF bits unchanged);
TMA is untouched and the accumulator drains completely. -/
theorem C2_tima (N : Nat) (cs : List Nat) (s : MMU)
    (hsum : cs.sum = 4 * N) (h7 : s.io 0x07 = 0x05) (h0 : s.timer.tima_counter = 0)
    (h5 : s.io 0x05 < 0x100) (h6 : s.io 0x06 < 0x100) (hF : s.io 0x0F < 0x100) :
    mmuRead (cs.foldl (fun st c => timerStep c st) s) 0xFF05 =
      (timaRun (s.io 0x06) N (s.io 0x05, false)).1 ∧
    mmuRead (cs.foldl (fun st c => timerStep c st) s) 0xFF0F =
      (s.io 0x0F ||| (if (timaRun (s.io 0x06) N (s.io 0x05, false)).2 then 0x04 else 0)) ∧
    mmuRead (cs.foldl (fun st c => timerStep c st) s) 0xFF06 = s.io 0x06 ∧
    (cs.foldl (fun st c => timerStep c st) s).timer.tima_counter = 0 := by
  obtain ⟨w1, w2, w3, w4, w5⟩ := timerFold_run cs s h7 h5 h6 hF (by omega)
  have hN : (s.timer.tima_counter + cs.sum) / 4 = N := by
    rw [h0, hsum]
    omega
  have hM : (s.timer.tima_counter + cs.sum) % 4 = 0 := by
    rw [h0, hsum]
    omega
  rw [mmuRead_FF05, mmuRead_FF06, mmuRead_FF0F, w1, w2, w3, w5, hN, hM]
  refine ⟨Nat.mod_eq_of_lt (timaRun_lt _ h6 N _ h5), ?_, Nat.mod_eq_of_lt h6, rfl⟩
  by_cases fl : (timaRun (s.io 0x06) N (s.io 0x05, false)).2 <;> simp only [fl, if_true, if_false]
  · exact Nat.mod_eq_of_lt (lor_lt_256 _ _ hF (by norm_num))
  · simp [Nat.mod_eq_of_lt hF]

/-- C2 witness: two steps of 5 and 3 M-cycles (N = 2) from TIMA = 0xFE,
TMA = 0xAB: TIMA passes through 0xFF and reloads 0xAB with IF bit 2 raised. -/
theorem C2_witness :
    (([5, 3] : List Nat).sum = 4 * 2 ∧ timaMMU.io 0x07 = 0x05 ∧
      timaMMU.timer.tima_counter = 0 ∧ timaMMU.io 0x05 = 0xFE ∧ timaMMU.io 0x06 = 0xAB) ∧
    mmuRead (([5, 3] : List Nat).foldl (fun st c => timerStep c st) timaMMU) 0xFF05 =
      (timaRun (timaMMU.io 0x06) 2 (timaMMU.io 0x05, false)).1 ∧
    mmuRead (([5, 3] : List Nat).foldl (fun st c => timerStep c st) timaMMU) 0xFF0F =
      (timaMMU.io 0x0F |||
        (if (timaRun (timaMMU.io 0x06) 2 (timaMMU.io 0x05, false)).2 then 0x04 else 0)) :=
  ⟨⟨by decide, by decide, rfl, by decide, by decide⟩,
    (C2_tima 2 [5, 3] timaMMU (by decide) (by decide) rfl (by decide) (by decide) (by decide)).1,
    (C2_tima 2 [5, 3] timaMMU (by decide) (by decide) rfl (by decide) (by decide)
      (by decide)).2.1⟩

end GB
